import Mathlib

/-!
Shallow embedding of `update-index.py`, the single script of the
`apicurio-testing-results` repository.  The script scans workflow-run
directories, loads optional JSON metadata sidecars, and rewrites the
embedded JavaScript data of an `index.html` template via regex text
substitution.  Pure values replace the filesystem: a directory listing is a
`List Entry`, a metadata sidecar is an `Option (Option Json)` (absent /
present-but-invalid-JSON / parsed value), and the template file is an
`Option (List Char)`.  Python exceptions are modelled with `Except PyErr`;
uncaught exceptions propagate, the `except (JSONDecodeError, KeyError)`
clause of the loader catches only those two.
-/

/-- JSON values as produced by Python's `json.load`.  Numbers are modelled
as integers (no float in the repository's data paths); an object is its
key/value association list. -/
inductive Json where
  | null : Json
  | b : Bool → Json
  | num : Int → Json
  | str : String → Json
  | arr : List Json → Json
  | obj : List (String × Json) → Json
deriving BEq, Repr

/-- Python exception kinds that the script's code paths can raise. -/
inductive PyErr where
  | attributeError : PyErr
  | keyError : PyErr
deriving DecidableEq, Repr

/-- Association lookup of a key in a parsed JSON object (Python dict lookup;
keys of a parsed object are unique). -/
def jlookup : List (String × Json) → String → Option Json
  | [], _ => none
  | (k, v) :: rest, key => if k == key then some v else jlookup rest key

/-- Python `x.get(key, default)`: succeeds only when `x` is a dict,
otherwise raises `AttributeError` (as `list`/`str`/`int`/`None` have no
`.get`). -/
def pyGet (j : Json) (key : String) (dflt : Json) : Except PyErr Json :=
  match j with
  | .obj kvs => .ok ((jlookup kvs key).getD dflt)
  | _ => .error .attributeError

/-- Python `str.strip()` whitespace (space, tab, newline, carriage
return, vertical tab, form feed). -/
def isPySpace (c : Char) : Bool :=
  c == ' ' || c == '\t' || c == '\n' || c == '\r' || c == '\x0b' || c == '\x0c'

/-- Python `s.strip()` on a string value. -/
def pyStripStr (s : String) : String :=
  ⟨((s.data.dropWhile isPySpace).reverse.dropWhile isPySpace).reverse⟩

/-- Python `x.strip()`: succeeds only on a string, otherwise raises
`AttributeError`. -/
def pyStrip (j : Json) : Except PyErr Json :=
  match j with
  | .str s => .ok (.str (pyStripStr s))
  | _ => .error .attributeError

/-- Python truthiness of a JSON-derived value (`if x:`). -/
def pyTruthy : Json → Bool
  | .null => false
  | .b v => v
  | .num n => n != 0
  | .str s => !s.data.isEmpty
  | .arr xs => !xs.isEmpty
  | .obj kvs => !kvs.isEmpty

mutual
/-- Python `repr` of a JSON-derived value, for the shapes the script can
meet (string escaping inside `repr` of a string is elided; the script only
ever interpolates strings and `None`). -/
def pyRepr : Json → String
  | .null => "None"
  | .b true => "True"
  | .b false => "False"
  | .num n => toString n
  | .str s => "\x27" ++ s ++ "\x27"
  | .arr xs => "[" ++ String.intercalate (", ") (pyReprList xs) ++ "]"
  | .obj kvs => "\x7b" ++ String.intercalate (", ") (pyReprKVs kvs) ++ "\x7d"

/-- `repr` of the elements of a list value. -/
def pyReprList : List Json → List String
  | [] => []
  | j :: js => pyRepr j :: pyReprList js

/-- `repr` of the entries of a dict value. -/
def pyReprKVs : List (String × Json) → List String
  | [] => []
  | (k, v) :: rest => ("\x27" ++ k ++ "\x27: " ++ pyRepr v) :: pyReprKVs rest
end

/-- Python `str()` of a JSON-derived value (used by f-string
interpolation): a string interpolates verbatim, containers via `repr`. -/
def pyStr (j : Json) : String :=
  match j with
  | .str s => s
  | _ => pyRepr j

/- ### Timestamp parsing (`datetime.fromisoformat`) -/

/-- Take exactly `n` ASCII digits from the front.  Python's `\d` is
modelled as an ASCII digit. -/
def takeDigitsN : Nat → List Char → Option (List Char × List Char)
  | 0, s => some ([], s)
  | _ + 1, [] => none
  | n + 1, c :: rest =>
    if c.isDigit then
      match takeDigitsN n rest with
      | some (d, r) => some (c :: d, r)
      | none => none
    else none

/-- Longest run of leading ASCII digits. -/
def takeDigitsGreedy : List Char → (List Char × List Char)
  | [] => ([], [])
  | c :: rest =>
    if c.isDigit then
      let (d, r) := takeDigitsGreedy rest
      (c :: d, r)
    else ([], c :: rest)

/-- One-or-more digits (the regex `\d+`, greedy). -/
def takeDigits1 (s : List Char) : Option (List Char × List Char) :=
  match s with
  | c :: rest =>
    if c.isDigit then
      let (d, r) := takeDigitsGreedy rest
      some (c :: d, r)
    else none
  | [] => none

/-- Consume one expected character. -/
def expectChar (c : Char) : List Char → Option (List Char)
  | x :: rest => if x == c then some rest else none
  | [] => none

/-- Numeric value of a digit string. -/
def digitsToNat (ds : List Char) : Nat :=
  ds.foldl (fun a c => a * 10 + (c.toNat - 48)) 0

/-- Gregorian leap year. -/
def isLeap (y : Nat) : Bool :=
  (y % 4 == 0 && y % 100 != 0) || y % 400 == 0

/-- Days in a month, as validated by `datetime`. -/
def daysInMonth (y m : Nat) : Nat :=
  if m == 2 then (if isLeap y then 29 else 28)
  else if m == 4 || m == 6 || m == 9 || m == 11 then 30
  else 31

/-- Civil date to days since 1970-01-01 (Hinnant's algorithm, as used by
proleptic-Gregorian datetime arithmetic). -/
def daysFromCivil (y m d : Nat) : Int :=
  let y' : Int := if m ≤ 2 then (y : Int) - 1 else (y : Int)
  let era : Int := y'.fdiv 400
  let yoe : Int := y' - era * 400
  let mp : Int := ((m : Int) + 9) % 12
  let doy : Int := (153 * mp + 2) / 5 + (d : Int) - 1
  let doe : Int := yoe * 365 + yoe / 4 - yoe / 100 + doy
  era * 146097 + doe - 719468

/-- A parsed `datetime`: seconds shown on its own clock since the epoch
reference, and an optional UTC offset in seconds (`none` = naive). -/
structure PyDateTime where
  clock : Int
  offset : Option Int
deriving DecidableEq, Repr

/-- Parse a `±HH:MM` UTC offset (the tail accepted by `fromisoformat`
after the time of day). -/
def parseTzOffset (s : List Char) : Option Int :=
  match s with
  | sign :: rest =>
    if sign == '+' || sign == '-' then
      match takeDigitsN 2 rest with
      | some (hh, r1) =>
        match expectChar ':' r1 with
        | some r2 =>
          match takeDigitsN 2 r2 with
          | some (mm, r3) =>
            if r3.isEmpty && digitsToNat hh ≤ 23 && digitsToNat mm ≤ 59 then
              let v : Int := (digitsToNat hh : Int) * 3600 + (digitsToNat mm : Int) * 60
              some (if sign == '-' then -v else v)
            else none
          | none => none
        | none => none
      | none => none
    else none
  | [] => none

/-- Model of `datetime.fromisoformat` for the `YYYY-MM-DD[<sep>HH:MM:SS[±HH:MM]]`
shapes the script's data uses (any single separator character, per the
pre-3.11 grammar the `'Z'`-replace targets).  Dates and times are
validated as `datetime` does; anything else is a `ValueError`, i.e.
`none`. -/
def pyFromIso (s : String) : Option PyDateTime :=
  match takeDigitsN 4 s.data with
  | none => none
  | some (y, r1) =>
    match expectChar '-' r1 with
    | none => none
    | some r2 =>
      match takeDigitsN 2 r2 with
      | none => none
      | some (mo, r3) =>
        match expectChar '-' r3 with
        | none => none
        | some r4 =>
          match takeDigitsN 2 r4 with
          | none => none
          | some (d, r5) =>
            let yn := digitsToNat y
            let mon := digitsToNat mo
            let dn := digitsToNat d
            if 1 ≤ yn && 1 ≤ mon && mon ≤ 12 && 1 ≤ dn && dn ≤ daysInMonth yn mon then
              match r5 with
              | [] => some ⟨daysFromCivil yn mon dn * 86400, none⟩
              | _sep :: tr =>
                match takeDigitsN 2 tr with
                | none => none
                | some (hh, t1) =>
                  match expectChar ':' t1 with
                  | none => none
                  | some t2 =>
                    match takeDigitsN 2 t2 with
                    | none => none
                    | some (mi, t3) =>
                      match expectChar ':' t3 with
                      | none => none
                      | some t4 =>
                        match takeDigitsN 2 t4 with
                        | none => none
                        | some (ss, t5) =>
                          let hn := digitsToNat hh
                          let min := digitsToNat mi
                          let sn := digitsToNat ss
                          if hn ≤ 23 && min ≤ 59 && sn ≤ 59 then
                            let clock : Int :=
                              daysFromCivil yn mon dn * 86400 +
                                (hn : Int) * 3600 + (min : Int) * 60 + (sn : Int)
                            match t5 with
                            | [] => some ⟨clock, none⟩
                            | _ =>
                              match parseTzOffset t5 with
                              | some off => some ⟨clock, some off⟩
                              | none => none
                          else none
            else none

/-- Absolute instant of a datetime: offset-aware values subtract their
offset, naive values are taken at face value (Python subtracts two naive
datetimes the same way). -/
def pyInstant (t : PyDateTime) : Int := t.clock - (t.offset.getD 0)

/-- Python `f"{n:02d}"`: zero-pad to width two.  A negative value is never
zero-padded at width two, the sign already fills the field. -/
def format02 (n : Int) : String :=
  if 0 ≤ n && n < 10 then "0" ++ toString n else toString n

/- ### Text search and substitution primitives

The regex patterns of the script are literal-anchored with non-greedy
gaps, so every search reduces to first-occurrence splitting, and every
`re.sub` / `str.replace` to repeated leftmost replacement. -/

/-- Split a character list at the first occurrence of a literal pattern:
`findSplit pat s = some (b, a)` with `s = b ++ pat ++ a` and no earlier
occurrence. -/
def findSplit (pat : List Char) : List Char → Option (List Char × List Char)
  | [] => if pat.isEmpty then some ([], []) else none
  | c :: rest =>
    if pat.isPrefixOf (c :: rest) then some ([], (c :: rest).drop pat.length)
    else
      match findSplit pat rest with
      | some (b, a) => some (c :: b, a)
      | none => none

/-- Whether a literal pattern occurs somewhere in a list. -/
def hasInf (pat s : List Char) : Bool := (findSplit pat s).isSome

/-- Fixed-width matcher: match when the first `L` characters satisfy
`pred`, consuming them. -/
def mOf (L : Nat) (pred : List Char → Bool) (s : List Char) : Option (List Char) :=
  if L ≤ s.length then
    (if pred (s.take L) then some (s.drop L) else none)
  else none

/-- Replace every (leftmost-first, non-overlapping) match of a matcher by
a fixed replacement, continuing after each match — the semantics of
`re.sub` and `str.replace` for the fixed-width patterns used here.  The
fuel argument dominates the number of scanning steps. -/
def subAllPAux (p : List Char → Option (List Char)) (repl : List Char) :
    Nat → List Char → List Char
  | 0, s => s
  | fuel + 1, s =>
    match p s with
    | some r => repl ++ subAllPAux p repl fuel r
    | none =>
      match s with
      | [] => []
      | c :: rest => c :: subAllPAux p repl fuel rest

/-- Whether a matcher matches at some position (`re.search`). -/
def searchP (p : List Char → Option (List Char)) : List Char → Bool
  | [] => (p []).isSome
  | c :: rest => (p (c :: rest)).isSome || searchP p rest

/-- The literal matcher for a pattern. -/
def litM (pat : List Char) : List Char → Option (List Char) :=
  mOf pat.length (fun w => w == pat)

/-- Python `s.replace(pat, rep)` (all occurrences, left to right; only
used with non-empty `pat`). -/
def replaceAll (pat rep s : List Char) : List Char :=
  subAllPAux (litM pat) rep (s.length + 1) s

/- ### `calculate_duration` (lines 19-38) -/

/-- Python `ts.replace('Z', '+00:00')` (line 26/27). -/
def pyZfix (s : String) : String :=
  ⟨replaceAll (("Z").data) (("+00:00").data) s.data⟩

/-- Duration between two ISO timestamps: the whole-second count split
with Python floor division and `%`, each field through `f"{..:02d}"`.
`None` on empty input, unparseable timestamps (`ValueError`), or a
naive/aware mix (`TypeError`) — all swallowed by the bare `except`. -/
def calculate_duration (started_at completed_at : String) : Option String :=
  if started_at.data.isEmpty || completed_at.data.isEmpty then none
  else
    let s' : String := pyZfix started_at
    let e' : String := pyZfix completed_at
    match pyFromIso s', pyFromIso e' with
    | some ds, some de =>
      if ds.offset.isSome == de.offset.isSome then
        let total : Int := pyInstant de - pyInstant ds
        some (format02 (total.fdiv 3600) ++ ":" ++
              format02 ((total.emod 3600).fdiv 60) ++ ":" ++
              format02 (total.emod 60))
      else none
    | _, _ => none

/- ### `load_workflow_metadata` (lines 41-83) -/

/-- Python `x == 'Unknown'` for a JSON-derived value: true exactly on the
sentinel string. -/
def isUnknownStr (j : Json) : Bool :=
  match j with
  | .str s => s == "Unknown"
  | _ => false

/-- The four extracted metadata fields; `Json.null` is Python `None`,
i.e. the field is absent. -/
structure MetaResult where
  actor : Json
  release_version : Json
  started_at : Json
  duration_formatted : Json
deriving BEq, Repr

/-- All four fields absent. -/
def emptyMeta : MetaResult := ⟨.null, .null, .null, .null⟩

/-- The `workflow.actor` extraction (line 50). -/
def actorOf (data : Json) : Except PyErr Json :=
  match pyGet data ("workflow") (Json.obj []) with
  | .error e => .error e
  | .ok w => pyGet w ("actor") (Json.str ("Unknown"))

/-- The `inputs.release-version` extraction (line 51). -/
def releaseOf (data : Json) : Except PyErr Json :=
  match pyGet data ("inputs") (Json.obj []) with
  | .error e => .error e
  | .ok i => pyGet i ("release-version") (Json.str ("Unknown"))

/-- Body of the `try` block of the loader, for a successfully parsed JSON
value (lines 49-74).  Any `AttributeError` from wrong-typed structure
escapes this body. -/
def loadBody (data : Json) : Except PyErr MetaResult :=
  match actorOf data with
  | .error e => .error e
  | .ok actor =>
    match releaseOf data with
    | .error e => .error e
    | .ok release =>
      match pyGet data ("execution") (Json.obj []) with
      | .error e => .error e
      | .ok execution =>
        match pyGet execution ("started_at") (Json.str ("")) with
        | .error e => .error e
        | .ok startedRaw =>
          match pyStrip startedRaw with
          | .error e => .error e
          | .ok started =>
            match pyGet execution ("duration_formatted") Json.null with
            | .error e => .error e
            | .ok durf0 =>
              let durfStep : Except PyErr Json :=
                if pyTruthy durf0 then .ok durf0
                else
                  match pyGet execution ("completed_at") (Json.str ("")) with
                  | .error e => .error e
                  | .ok compRaw =>
                    match pyStrip compRaw with
                    | .error e => .error e
                    | .ok comp =>
                      if pyTruthy started && pyTruthy comp then
                        match started, comp with
                        | .str ss, .str cs =>
                          .ok (match calculate_duration ss cs with
                               | some dtxt => Json.str dtxt
                               | none => Json.null)
                        | _, _ => .ok durf0
                      else .ok durf0
              match durfStep with
              | .error e => .error e
              | .ok durf =>
                .ok { actor := if isUnknownStr actor then Json.null else actor
                    , release_version :=
                        if isUnknownStr release then Json.null else release
                    , started_at := if pyTruthy started then started else Json.null
                    , duration_formatted := if pyTruthy durf then durf else Json.null }

/-- The loader.  Input: `none` = no sidecar file; `some none` = file
exists but is invalid JSON (`json.load` raises `JSONDecodeError`);
`some (some j)` = file parses to `j`.  Output carries whether the
non-fatal warning was printed; an uncaught exception is `.error`. -/
def load_workflow_metadata (file : Option (Option Json)) :
    Except PyErr (MetaResult × Bool) :=
  match file with
  | none => .ok (emptyMeta, false)
  | some none => .ok (emptyMeta, true)
  | some (some data) =>
    match loadBody data with
    | .ok m => .ok (m, false)
    | .error .keyError => .ok (emptyMeta, true)
    | .error e => .error e

/- ### `scan_workflow_directories` (lines 86-121) -/

/-- A direct child of a workflow directory (only its name and kind
matter: `job_count` counts child directories, `index.html` existence is a
name check). -/
structure Child where
  name : String
  isDir : Bool
deriving DecidableEq, Repr

/-- An immediate entry of the scanned base directory.  `meta` models the
`workflow-metadata.json` sidecar: absent / invalid JSON / parsed value. -/
structure Entry where
  name : String
  isDir : Bool
  children : List Child
  meta : Option (Option Json)
deriving BEq, Repr

/-- One collected workflow record (lines 107-119). -/
structure Record where
  name : String
  year : String
  month : String
  day : String
  run_id : String
  has_index : Bool
  job_count : Nat
  actor : Json
  release_version : Json
  started_at : Json
  duration_formatted : Json
deriving BEq, Repr

/-- The `re.match(r'(\d{4})-(\d{2})-(\d{2})-(\d+)', name)` prefix match
with its four groups. -/
def matchWorkflowName (name : String) : Option (String × String × String × String) :=
  match takeDigitsN 4 name.data with
  | none => none
  | some (y, r1) =>
    match expectChar '-' r1 with
    | none => none
    | some r2 =>
      match takeDigitsN 2 r2 with
      | none => none
      | some (mo, r3) =>
        match expectChar '-' r3 with
        | none => none
        | some r4 =>
          match takeDigitsN 2 r4 with
          | none => none
          | some (d, r5) =>
            match expectChar '-' r5 with
            | none => none
            | some r6 =>
              match takeDigits1 r6 with
              | none => none
              | some (rid, _) => some (⟨y⟩, ⟨mo⟩, ⟨d⟩, ⟨rid⟩)

/-- The inclusion test of the scanner loop: a directory, not one of the
two reserved names, and a pattern match (lines 92-95). -/
def includedEntry (e : Entry) : Bool :=
  e.isDir && !(e.name == "__pycache__" || e.name == ".git") &&
    (matchWorkflowName e.name).isSome

/-- Build the record appended for a matched directory (lines 98-119). -/
def buildRecord (e : Entry) (g : String × String × String × String)
    (m : MetaResult) : Record :=
  { name := e.name
  , year := g.1, month := g.2.1, day := g.2.2.1, run_id := g.2.2.2
  , has_index := e.children.any (fun c => c.name == "index.html")
  , job_count := (e.children.filter (fun c => c.isDir)).length
  , actor := m.actor
  , release_version := m.release_version
  , started_at := m.started_at
  , duration_formatted := m.duration_formatted }

/-- Process a (pre-sorted) entry list in order; an uncaught exception
from the loader aborts the whole scan. -/
def scanList : List Entry → Except PyErr (List Record)
  | [] => .ok []
  | e :: rest =>
    if e.isDir && !(e.name == "__pycache__" || e.name == ".git") then
      match matchWorkflowName e.name with
      | some g =>
        match load_workflow_metadata e.meta with
        | .error er => .error er
        | .ok (m, _) =>
          match scanList rest with
          | .error er => .error er
          | .ok rs => .ok (buildRecord e g m :: rs)
      | none => scanList rest
    else scanList rest

/-- Lexicographic (code-point) string order, as Python compares `str`
values: `lexLe xs ys` is `xs <= ys`. -/
def lexLe : List Char → List Char → Bool
  | [], _ => true
  | _ :: _, [] => false
  | a :: as, b :: bs =>
    if a.toNat < b.toNat then true
    else if a.toNat == b.toNat then lexLe as bs
    else false

/-- Strict lexicographic (code-point) string order. -/
def lexLt : List Char → List Char → Bool
  | [], [] => false
  | [], _ :: _ => true
  | _ :: _, [] => false
  | a :: as, b :: bs =>
    if a.toNat < b.toNat then true
    else if a.toNat == b.toNat then lexLt as bs
    else false

/-- Insert into a sorted list (ascending by `le`). -/
def insertSorted {α : Type} (le : α → α → Bool) (e : α) : List α → List α
  | [] => [e]
  | x :: xs => if le e x then e :: x :: xs else x :: insertSorted le e xs

/-- Insertion sort, ascending by `le` — the result `sorted` computes for
a total order (entry names of one directory are distinct, so the
stability detail of `sorted` is irrelevant). -/
def insertionSort {α : Type} (le : α → α → Bool) : List α → List α
  | [] => []
  | x :: xs => insertSorted le x (insertionSort le xs)

/-- `sorted(current_dir.iterdir(), reverse=True)`: directory entries in
descending lexicographic name order. -/
def pySortRev (fs : List Entry) : List Entry :=
  (insertionSort (fun a b => lexLe a.name.data b.name.data) fs).reverse

/-- The scanner: sort descending, keep matching directories, collect
records (lines 86-121). -/
def scan_workflow_directories (fs : List Entry) : Except PyErr (List Record) :=
  scanList (pySortRev fs)

/- ### `update_index_html` (lines 124-214) -/

/-- The old data-array declaration head (group 1 of `pattern1`). -/
def oldDecl : List Char := ("const workflowDirectories = [").data

/-- The new data-array declaration head (group 1 of `pattern2`). -/
def newDecl : List Char := ("const workflowData = [").data

/-- The array terminator (group 3 of both patterns). -/
def closeDecl : List Char := ("];").data

/-- Head literal of the `checkForIndex` pattern. -/
def cfiHead : List Char := ("function checkForIndex(workflowName) \x7b").data

/-- The `return ` literal of the `checkForIndex` pattern. -/
def retLit : List Char := ("return ").data

/-- The `;` opening group 3 of the `checkForIndex` pattern. -/
def semiLit : List Char := (";").data

/-- The closing `}` of the `checkForIndex` pattern. -/
def braceLit : List Char := ("\x7d").data

/-- The first-run footer placeholder replaced by the timestamp line. -/
def phLit : List Char := ("Generated on <span id=\"current-date\"></span>").data

/-- Timestamp line head. -/
def tsHeadLit : List Char := ("Last updated: ").data

/-- Timestamp line tail. -/
def tsTailLit : List Char := (" | Auto-generated from directory scan").data

/-- The full timestamp line for a given clock rendering. -/
def tsLine (now : List Char) : List Char := tsHeadLit ++ now ++ tsTailLit

/-- ASCII digit at an index. -/
def dAt (w : List Char) (i : Nat) : Bool := (w.getD i ' ').isDigit

/-- Expected character at an index. -/
def cAt (w : List Char) (i : Nat) (c : Char) : Bool := w.getD i ' ' == c

/-- The digit/separator positions of a 19-character timestamp. -/
def stampBody (w : List Char) : Bool :=
  dAt w 0 && dAt w 1 && dAt w 2 && dAt w 3 && cAt w 4 '-' &&
  dAt w 5 && dAt w 6 && cAt w 7 '-' && dAt w 8 && dAt w 9 &&
  cAt w 10 ' ' && dAt w 11 && dAt w 12 && cAt w 13 ':' &&
  dAt w 14 && dAt w 15 && cAt w 16 ':' && dAt w 17 && dAt w 18

/-- The `\d{4}-\d{2}-\d{2} \d{2}:\d{2}:\d{2}` shape of a rendered
`strftime('%Y-%m-%d %H:%M:%S')` stamp. -/
def stampOk (w : List Char) : Bool :=
  w.length == 19 && stampBody w

/-- The fixed 70-character window shape of the timestamp pattern
`Last updated: <stamp> | Auto-generated from directory scan`. -/
def tsPred (w : List Char) : Bool :=
  w.length == 70 && tsHeadLit.isPrefixOf w &&
    stampOk ((w.drop 14).take 19) && tsTailLit.isPrefixOf (w.drop 33)

/-- Matcher for the timestamp pattern. -/
def tsM : List Char → Option (List Char) := mOf 70 tsPred

/-- `re.search` of the timestamp pattern. -/
def tsSearch (s : List Char) : Bool := searchP tsM s

/-- `re.sub` of the timestamp pattern by a fixed line. -/
def subTs (rep s : List Char) : List Char :=
  subAllPAux tsM rep (s.length + 1) s

/-- `re.sub` of `pre(.*?)post` (DOTALL) by `pre ++ mid ++ post`: replace
the gap of each leftmost non-overlapping match, scanning on after the
match.  Fuelled; both literals are non-empty at every use. -/
def subPrePostAux (pre post mid : List Char) : Nat → List Char → List Char
  | 0, s => s
  | fuel + 1, s =>
    match findSplit pre s with
    | none => s
    | some (b, a) =>
      match findSplit post a with
      | none => s
      | some (_, rest) => b ++ pre ++ mid ++ post ++ subPrePostAux pre post mid fuel rest

/-- Wrapper with sufficient fuel. -/
def subPrePost (pre post mid s : List Char) : List Char :=
  subPrePostAux pre post mid (s.length + 1) s

/-- `re.search` of `pre(.*?)post`: a match exists iff some occurrence of
`pre` is followed by an occurrence of `post`, which reduces to checking
after the first `pre`. -/
def searchPrePost (pre post s : List Char) : Bool :=
  match findSplit pre s with
  | none => false
  | some (_, a) => (findSplit post a).isSome

/-- `re.sub` of the `checkForIndex` pattern: head literal, then
non-greedy gaps anchored by `return `, `;` and `}`; group 2 (between
`return ` and `;`) is replaced by `repl`. -/
def subCFIAux (repl : List Char) : Nat → List Char → List Char
  | 0, s => s
  | fuel + 1, s =>
    match findSplit cfiHead s with
    | none => s
    | some (b1, a1) =>
      match findSplit retLit a1 with
      | none => s
      | some (x, a2) =>
        match findSplit semiLit a2 with
        | none => s
        | some (_, a3) =>
          match findSplit braceLit a3 with
          | none => s
          | some (y, rest) =>
            b1 ++ cfiHead ++ x ++ retLit ++ repl ++ semiLit ++ y ++ braceLit ++
              subCFIAux repl fuel rest

/-- Wrapper with sufficient fuel. -/
def subCFI (repl s : List Char) : List Char :=
  subCFIAux repl (s.length + 1) s

/-- One serialized array entry (lines 139-165), character-exact. -/
def renderEntry (w : Record) : List Char :=
  ("\x7bname: \x27" ++ w.name ++ "\x27, hasIndex: " ++
    (if w.has_index then "true" else "false") ++
    ", jobCount: " ++ toString w.job_count ++
    (if pyTruthy w.actor then ", actor: \x27" ++ pyStr w.actor ++ "\x27"
     else ", actor: null") ++
    (if pyTruthy w.release_version then
       ", releaseVersion: \x27" ++ pyStr w.release_version ++ "\x27"
     else ", releaseVersion: null") ++
    (if pyTruthy w.started_at then
       ", startedAt: \x27" ++ pyStr w.started_at ++ "\x27"
     else ", startedAt: null") ++
    (if pyTruthy w.duration_formatted then
       ", duration: \x27" ++ pyStr w.duration_formatted ++ "\x27"
     else ", duration: null") ++
    "\x7d").data

/-- The joined entries (line 168). -/
def workflowsJs (ws : List Record) : List Char :=
  List.intercalate ((",\n                ").data) (ws.map renderEntry)

/-- The replacement put between the array declaration and `];`
(line 175). -/
def midJs (ws : List Record) : List Char :=
  ("\n                ").data ++ workflowsJs ws ++ ("\n            ").data

/-- The recomputed lookup-list expression spliced into `checkForIndex`
(lines 188-193). -/
def cfiRepl (ws : List Record) : List Char :=
  ("[").data ++
    List.intercalate ((", ").data)
      ((ws.filter (fun w => w.has_index)).map
        (fun w => ("\x27" ++ w.name ++ "\x27").data)) ++
    ("].includes(workflowName)").data

/-- The renderer (lines 124-214).  `file` is the template file content if
it exists; `now` is the rendered `strftime('%Y-%m-%d %H:%M:%S')` clock.
Returns the boolean result together with the written content. -/
def update_index_html (workflows : List Record) (now : List Char)
    (file : Option (List Char)) : Bool × Option (List Char) :=
  match file with
  | none => (false, none)
  | some content =>
    let mid := midJs workflows
    let c1 :=
      if searchPrePost oldDecl closeDecl content then
        replaceAll oldDecl newDecl (subPrePost oldDecl closeDecl mid content)
      else if searchPrePost newDecl closeDecl content then
        subPrePost newDecl closeDecl mid content
      else content
    let c2 := subCFI (cfiRepl workflows) c1
    let c3 :=
      if tsSearch c2 then subTs (tsLine now) c2
      else replaceAll phLit (tsLine now) c2
    (true, some c3)

/-- Extract the body of the (new-convention) data array from a rendered
template, cutting at the first declaration and the first terminator after
it. -/
def extractArrayBody (c : List Char) : Option (List Char) :=
  match findSplit newDecl c with
  | none => none
  | some (_, a) =>
    match findSplit closeDecl a with
    | none => none
    | some (m, _) => some m

/-- Extract the spliced lookup expression of `checkForIndex` from a
rendered template. -/
def extractLookup (c : List Char) : Option (List Char) :=
  match findSplit cfiHead c with
  | none => none
  | some (_, a) =>
    match findSplit retLit a with
    | none => none
    | some (_, b) =>
      match findSplit semiLit b with
      | none => none
      | some (r, _) => some r

/- ### Spec-side comparison definitions -/

/-- Modelled from the spec: zero-padded rendering of a non-negative
whole-second count as `HH:MM:SS` ("take the non-negative difference in
whole seconds, and format as zero-padded HH:MM:SS"). -/
def specHMS (n : Nat) : String :=
  (if n / 3600 < 10 then "0" ++ toString (n / 3600) else toString (n / 3600)) ++ ":" ++
  (if n % 3600 / 60 < 10 then "0" ++ toString (n % 3600 / 60) else toString (n % 3600 / 60)) ++ ":" ++
  (if n % 60 < 10 then "0" ++ toString (n % 60) else toString (n % 60))

/-- Numeric run id of an entry name, when the name matches the workflow
pattern. -/
def ridNatOf (e : Entry) : Nat :=
  match matchWorkflowName e.name with
  | some g => digitsToNat g.2.2.2.data
  | none => 0

/-- Date key of an entry name (the fixed-width `YYYY-MM-DD` prefix). -/
def dateKeyOf (e : Entry) : List Char := e.name.data.take 10

/-- Modelled from the spec: "newest-first chronological order, with ties
among same-date runs broken by descending run id" — matched directories
sorted by date then numeric run id, both descending, names listed. -/
def specNewestFirstNames (fs : List Entry) : List String :=
  ((insertionSort
      (fun a b =>
        lexLt (dateKeyOf a) (dateKeyOf b) ||
          (dateKeyOf a == dateKeyOf b && decide (ridNatOf a ≤ ridNatOf b)))
      (fs.filter includedEntry)).reverse).map
    (fun e => e.name)

/- ### Concrete sample data used to exercise the theorems -/

/-- Sample scan input with three matched directories (the spec's ordering
example). -/
def exEntries : List Entry :=
  [⟨("2024-01-02-5"), true, [], none⟩,
   ⟨("2024-01-01-9"), true, [], none⟩,
   ⟨("2024-01-02-3"), true, [], none⟩]

/-- Records the scanner produces for `exEntries`. -/
def exRecords : List Record :=
  [⟨("2024-01-02-5"), ("2024"), ("01"), ("02"), ("5"), false, 0, .null, .null, .null, .null⟩,
   ⟨("2024-01-02-3"), ("2024"), ("01"), ("02"), ("3"), false, 0, .null, .null, .null, .null⟩,
   ⟨("2024-01-01-9"), ("2024"), ("01"), ("01"), ("9"), false, 0, .null, .null, .null, .null⟩]

/-- Two same-date directories whose run ids have different digit counts. -/
def cfEntries : List Entry :=
  [⟨("2024-01-01-9"), true, [], none⟩,
   ⟨("2024-01-01-10"), true, [], none⟩]

/-- A scan input whose first directory carries an invalid-JSON sidecar. -/
def badJsonEntries : List Entry :=
  [⟨("2024-01-03-1"), true, [], some none⟩,
   ⟨("2024-01-02-2"), true, [], none⟩]

/-- A scan input whose (lexicographically greatest) directory carries a
sidecar that parses to a JSON array — valid JSON of the wrong shape. -/
def abortEntries : List Entry :=
  [⟨("2024-01-03-1"), true, [], some (some (Json.arr []))⟩,
   ⟨("2024-01-02-2"), true, [], none⟩]

/-- Mixed inputs for the inclusion test: a matching directory, a
non-matching directory, and a matching non-directory. -/
def incEntries : List Entry :=
  [⟨("2024-01-05-7"), true, [], none⟩,
   ⟨("notes"), true, [], none⟩,
   ⟨("2024-01-06-1"), false, [], none⟩]

/-- Records the scanner produces for `incEntries`. -/
def incRecords : List Record :=
  [⟨("2024-01-05-7"), ("2024"), ("01"), ("05"), ("7"), false, 0, .null, .null, .null, .null⟩]

/-- A directory with two job subdirectories and two plain files. -/
def jobsEntry : Entry :=
  ⟨("2024-02-01-4"), true,
   [⟨("job1"), true⟩, ⟨("job2"), true⟩,
    ⟨("index.html"), false⟩, ⟨("workflow-metadata.json"), false⟩], none⟩

/-- Sample record list for the renderer. -/
def wsW : List Record :=
  [⟨("2024-01-02-5"), ("2024"), ("01"), ("02"), ("5"), true, 3,
    Json.str ("alice"), Json.null, Json.null, Json.null⟩]

/-- Template fragments for the renderer theorems. -/
def tplP : List Char := ("<html><body><script>\n").data

/-- Previous array body of the sample template. -/
def tplM : List Char := (" old entries ").data

/-- Tail of the array-only sample template. -/
def tplR : List Char := ("\n</script></body></html>").data

/-- Gap between the array and the helper function. -/
def tplQ : List Char := ("\n").data

/-- Gap between the helper-function head and its `return`. -/
def tplX : List Char := ("\n  ").data

/-- Previous lookup expression of the sample template. -/
def tplRx : List Char := ("false").data

/-- Gap between the `;` and the closing brace. -/
def tplY : List Char := ("\n").data

/-- Gap between the helper function and the timestamp line. -/
def tplZ1 : List Char := ("\n</script><footer>").data

/-- Tail after the timestamp line. -/
def tplZ2 : List Char := ("</footer></html>").data

/-- A previously rendered clock stamp. -/
def stamp0 : List Char := ("2024-01-01 00:00:00").data

/-- Clock stamp of the first rendering run. -/
def stamp1 : List Char := ("2025-02-03 04:05:06").data

/-- Clock stamp of the second rendering run. -/
def stamp2 : List Char := ("2026-01-01 01:01:01").data

/-- A sidecar object with the `workflow` key missing entirely while
`inputs.release-version` carries a real value. -/
def mdNoWorkflow : List (String × Json) :=
  [(("inputs"), Json.obj [(("release-version"), Json.str ("1.0"))])]

/-- A sidecar object whose `workflow` object lacks an `actor` key while
`inputs.release-version` carries a real value. -/
def mdNoActor : List (String × Json) :=
  [(("workflow"), Json.obj []),
   (("inputs"), Json.obj [(("release-version"), Json.str ("1.0"))])]

/-- A sidecar object with a real `workflow.actor` and the `inputs` key
missing entirely. -/
def mdNoInputs : List (String × Json) :=
  [(("workflow"), Json.obj [(("actor"), Json.str ("alice"))])]

/-- A sidecar whose `workflow.actor` is the explicit string `"Unknown"`
while `inputs.release-version` is a real value. -/
def mdActorUnknown : List (String × Json) :=
  [(("workflow"), Json.obj [(("actor"), Json.str ("Unknown"))]),
   (("inputs"), Json.obj [(("release-version"), Json.str ("1.0"))])]

/-- A sidecar with the `workflow` key missing entirely, compared against
`mdActorUnknown`. -/
def mdActorMissing : List (String × Json) :=
  [(("inputs"), Json.obj [(("release-version"), Json.str ("2.0"))])]

/-- A sidecar whose `inputs.release-version` is the explicit string
`"Unknown"` while `workflow.actor` is a real value. -/
def mdRelUnknown : List (String × Json) :=
  [(("workflow"), Json.obj [(("actor"), Json.str ("bob"))]),
   (("inputs"), Json.obj [(("release-version"), Json.str ("Unknown"))])]

/-- A sidecar with the `inputs` key missing entirely, compared against
`mdRelUnknown`. -/
def mdRelMissing : List (String × Json) :=
  [(("workflow"), Json.obj [(("actor"), Json.str ("carol"))])]

/- ### Lemmas: first-occurrence splitting -/

theorem isPrefixOf_append_self (p t : List Char) : p.isPrefixOf (p ++ t) = true := by
  rw [ List.isPrefixOf_iff_prefix]
  exact List.prefix_append p t

theorem findSplit_isSome_of_pref {pat s : List Char} (h : pat.isPrefixOf s = true) :
    (findSplit pat s).isSome = true := by
  cases s with
  | nil =>
    cases pat with
    | nil => rfl
    | cons c cs => simp [List.isPrefixOf] at h
  | cons c rest => simp [findSplit, h]

theorem findSplit_append_self (pat a : List Char) :
    findSplit pat (pat ++ a) = some ([], a) := by
  cases pat with
  | nil =>
    cases a with
    | nil => rfl
    | cons c rest => simp [findSplit, List.isPrefixOf]
  | cons p ps =>
    have h1 : (p :: ps).isPrefixOf ((p :: ps) ++ a) = true := isPrefixOf_append_self _ _
    simp [findSplit, h1, List.drop_left]

theorem hasInf_nil_pat (s : List Char) : hasInf [] s = true := by
  cases s <;> simp [hasInf, findSplit, List.isPrefixOf]

theorem hasInf_cons_false {pat : List Char} {c : Char} {s : List Char}
    (h : hasInf pat (c :: s) = false) : hasInf pat s = false := by
  unfold hasInf at h ⊢
  cases hp : pat.isPrefixOf (c :: s) with
  | true => simp [findSplit, hp] at h
  | false =>
    cases hq : findSplit pat s with
    | none => simp [hq]
    | some v => simp [findSplit, hp, hq] at h

theorem findSplit_none_of {pat s : List Char} (h : hasInf pat s = false) :
    findSplit pat s = none := by
  unfold hasInf at h
  cases hq : findSplit pat s with
  | none => rfl
  | some v => rw [hq] at h; simp at h

theorem findSplit_first {pat : List Char} {b : List Char} (a : List Char)
    (h : hasInf pat (b ++ pat.dropLast) = false) :
    findSplit pat (b ++ pat ++ a) = some (b, a) := by
  induction b with
  | nil => simpa using findSplit_append_self pat a
  | cons c b' ih =>
    have hpat : pat ≠ [] := by
      intro he
      subst he
      rw [hasInf_nil_pat] at h
      exact Bool.noConfusion h
    have hnp : pat.isPrefixOf (c :: (b' ++ pat ++ a)) = false := by
      cases hq : pat.isPrefixOf (c :: (b' ++ pat ++ a)) with
      | false => rfl
      | true =>
        exfalso
        have hpref : pat <+: (c :: b') ++ (pat ++ a) := by
          rw [ List.isPrefixOf_iff_prefix] at hq
          simpa using hq
        obtain ⟨t, ht⟩ := List.dropLast_prefix pat
        have hpref2 : (c :: b') ++ pat.dropLast <+: (c :: b') ++ (pat ++ a) :=
          ⟨t ++ a, by rw [List.append_assoc, ← List.append_assoc pat.dropLast t a, ht]⟩
        have hlen : pat.length ≤ ((c :: b') ++ pat.dropLast).length := by
          have h1 : 1 ≤ pat.length := List.length_pos.mpr hpat
          simp [List.length_dropLast]
          omega
        have hp2 : pat <+: (c :: b') ++ pat.dropLast :=
          List.prefix_of_prefix_length_le hpref hpref2 hlen
        have hsome : (findSplit pat ((c :: b') ++ pat.dropLast)).isSome = true :=
          findSplit_isSome_of_pref (by rw [ List.isPrefixOf_iff_prefix]; exact hp2)
        unfold hasInf at h
        rw [show (c :: b') ++ pat.dropLast = c :: (b' ++ pat.dropLast) from rfl] at hsome
        rw [show (c :: b') ++ pat.dropLast = c :: (b' ++ pat.dropLast) from rfl] at h
        rw [hsome] at h
        exact Bool.noConfusion h
    have hc : hasInf pat (b' ++ pat.dropLast) = false :=
      hasInf_cons_false (by simpa using h)
    have ih' := ih hc
    rw [List.append_assoc] at ih'
    have hnp' : ¬ (pat <+: c :: (b' ++ (pat ++ a))) := by
      intro hx
      have hx' := ( List.isPrefixOf_iff_prefix).mpr hx
      rw [show c :: (b' ++ (pat ++ a)) = c :: (b' ++ pat ++ a) by rw [List.append_assoc]] at hx'
      rw [hnp] at hx'
      exact Bool.noConfusion hx'
    show findSplit pat (c :: (b' ++ pat ++ a)) = some (c :: b', a)
    simp [findSplit, hnp', ih']

/- ### Lemmas: evaluating the substitutions on well-placed occurrences -/

theorem findSplit_first' {pat b : List Char} (a : List Char)
    (h : hasInf pat (b ++ pat.dropLast) = false) :
    findSplit pat (b ++ (pat ++ a)) = some (b, a) := by
  rw [← List.append_assoc]
  exact findSplit_first a h

theorem subPrePostAux_stop {pre post mid s : List Char}
    (h : findSplit pre s = none) :
    ∀ fuel, subPrePostAux pre post mid fuel s = s := by
  intro fuel
  cases fuel with
  | zero => rfl
  | succ f => simp [subPrePostAux, h]

theorem subPrePost_single {pre post : List Char} (mid P M R : List Char)
    (h1 : hasInf pre (P ++ pre.dropLast) = false)
    (h2 : hasInf post (M ++ post.dropLast) = false)
    (h3 : hasInf pre R = false) :
    subPrePost pre post mid (P ++ pre ++ M ++ post ++ R) =
      P ++ pre ++ mid ++ post ++ R := by
  have f1 : findSplit pre (P ++ (pre ++ (M ++ (post ++ R)))) =
      some (P, M ++ (post ++ R)) := findSplit_first' _ h1
  have f2 : findSplit post (M ++ (post ++ R)) = some (M, R) := findSplit_first' _ h2
  have f3 : findSplit pre R = none := findSplit_none_of h3
  unfold subPrePost
  rw [show P ++ pre ++ M ++ post ++ R = P ++ (pre ++ (M ++ (post ++ R))) by
    simp [List.append_assoc]]
  simp only [subPrePostAux, f1, f2]
  rw [subPrePostAux_stop f3]

theorem searchPrePost_of_shape {pre post : List Char} (P M R : List Char)
    (h1 : hasInf pre (P ++ pre.dropLast) = false)
    (h2 : hasInf post (M ++ post.dropLast) = false) :
    searchPrePost pre post (P ++ pre ++ M ++ post ++ R) = true := by
  have f1 : findSplit pre (P ++ (pre ++ (M ++ (post ++ R)))) =
      some (P, M ++ (post ++ R)) := findSplit_first' _ h1
  have f2 : findSplit post (M ++ (post ++ R)) = some (M, R) := findSplit_first' _ h2
  unfold searchPrePost
  rw [show P ++ pre ++ M ++ post ++ R = P ++ (pre ++ (M ++ (post ++ R))) by
    simp [List.append_assoc]]
  rw [f1]
  simp [f2]

theorem searchPrePost_false (post : List Char) {pre s : List Char} (h : hasInf pre s = false) :
    searchPrePost pre post s = false := by
  unfold searchPrePost
  rw [findSplit_none_of h]

theorem subCFIAux_stop {repl s : List Char}
    (h : findSplit cfiHead s = none) :
    ∀ fuel, subCFIAux repl fuel s = s := by
  intro fuel
  cases fuel with
  | zero => rfl
  | succ f => simp [subCFIAux, h]

theorem subCFI_nomatch {repl s : List Char} (h : hasInf cfiHead s = false) :
    subCFI repl s = s := by
  unfold subCFI
  exact subCFIAux_stop (findSplit_none_of h) _

theorem subCFI_single (repl B1 X R2 Y Z : List Char)
    (h1 : hasInf cfiHead (B1 ++ cfiHead.dropLast) = false)
    (h2 : hasInf retLit (X ++ retLit.dropLast) = false)
    (h3 : hasInf semiLit R2 = false)
    (h4 : hasInf braceLit Y = false)
    (h5 : hasInf cfiHead Z = false) :
    subCFI repl (B1 ++ cfiHead ++ X ++ retLit ++ R2 ++ semiLit ++ Y ++ braceLit ++ Z) =
      B1 ++ cfiHead ++ X ++ retLit ++ repl ++ semiLit ++ Y ++ braceLit ++ Z := by
  have h3' : hasInf semiLit (R2 ++ semiLit.dropLast) = false := by
    rw [show semiLit.dropLast = ([] : List Char) from rfl, List.append_nil]
    exact h3
  have h4' : hasInf braceLit (Y ++ braceLit.dropLast) = false := by
    rw [show braceLit.dropLast = ([] : List Char) from rfl, List.append_nil]
    exact h4
  have f1 : findSplit cfiHead
      (B1 ++ (cfiHead ++ (X ++ (retLit ++ (R2 ++ (semiLit ++ (Y ++ (braceLit ++ Z)))))))) =
      some (B1, X ++ (retLit ++ (R2 ++ (semiLit ++ (Y ++ (braceLit ++ Z)))))) :=
    findSplit_first' _ h1
  have f2 : findSplit retLit (X ++ (retLit ++ (R2 ++ (semiLit ++ (Y ++ (braceLit ++ Z)))))) =
      some (X, R2 ++ (semiLit ++ (Y ++ (braceLit ++ Z)))) := findSplit_first' _ h2
  have f3 : findSplit semiLit (R2 ++ (semiLit ++ (Y ++ (braceLit ++ Z)))) =
      some (R2, Y ++ (braceLit ++ Z)) := findSplit_first' _ h3'
  have f4 : findSplit braceLit (Y ++ (braceLit ++ Z)) = some (Y, Z) := findSplit_first' _ h4'
  have f5 : findSplit cfiHead Z = none := findSplit_none_of h5
  unfold subCFI
  rw [show B1 ++ cfiHead ++ X ++ retLit ++ R2 ++ semiLit ++ Y ++ braceLit ++ Z =
      B1 ++ (cfiHead ++ (X ++ (retLit ++ (R2 ++ (semiLit ++ (Y ++ (braceLit ++ Z))))))) by
    simp [List.append_assoc]]
  simp only [subCFIAux, f1, f2, f3, f4]
  rw [subCFIAux_stop f5]

/- ### Lemmas: fixed-width matcher substitution -/

theorem mOf_append (L : Nat) (pred : List Char → Bool) {occ : List Char} (B : List Char)
    (hlen : occ.length = L) (hpred : pred occ = true) :
    mOf L pred (occ ++ B) = some B := by
  unfold mOf
  have h1 : L ≤ (occ ++ B).length := by simp [← hlen]
  rw [if_pos h1, List.take_left' hlen, List.drop_left' hlen, hpred]
  simp

theorem subAllPAux_stop {p : List Char → Option (List Char)} {repl : List Char} {s : List Char}
    (h : searchP p s = false) : ∀ fuel, subAllPAux p repl fuel s = s := by
  induction s with
  | nil =>
    intro fuel
    cases fuel with
    | zero => rfl
    | succ f =>
      have hp : p [] = none := by
        unfold searchP at h
        cases hq : p [] with
        | none => rfl
        | some v => rw [hq] at h; simp at h
      simp [subAllPAux, hp]
  | cons c rest ih =>
    intro fuel
    have h2 : searchP p rest = false := by
      unfold searchP at h
      cases hq : searchP p rest with
      | false => rfl
      | true => rw [hq] at h; simp at h
    have hp : p (c :: rest) = none := by
      unfold searchP at h
      cases hq : p (c :: rest) with
      | none => rfl
      | some v => rw [hq] at h; simp at h
    cases fuel with
    | zero => rfl
    | succ f => simp [subAllPAux, hp, ih h2]

theorem subAllPAux_single (L : Nat) (pred : List Char → Bool) (repl : List Char)
    {occ : List Char} (A B : List Char)
    (hlen : occ.length = L) (hpred : pred occ = true)
    (hpre : searchP (mOf L pred) (A ++ occ.dropLast) = false)
    (hpost : searchP (mOf L pred) B = false) :
    ∀ fuel, A.length + 1 ≤ fuel →
      subAllPAux (mOf L pred) repl fuel (A ++ occ ++ B) = A ++ repl ++ B := by
  induction A with
  | nil =>
    intro fuel hf
    cases fuel with
    | zero => omega
    | succ f =>
      have hm : mOf L pred (occ ++ B) = some B := mOf_append L pred B hlen hpred
      simp only [List.nil_append]
      simp [subAllPAux, hm, subAllPAux_stop hpost]
  | cons c A' ih =>
    intro fuel hf
    cases fuel with
    | zero => omega
    | succ f =>
      have hY : searchP (mOf L pred) (c :: (A' ++ occ.dropLast)) = false := by
        simpa using hpre
      have hYhead : mOf L pred (c :: (A' ++ occ.dropLast)) = none := by
        unfold searchP at hY
        cases hq : mOf L pred (c :: (A' ++ occ.dropLast)) with
        | none => rfl
        | some v => rw [hq] at hY; simp at hY
      have hlenY : L ≤ (c :: (A' ++ occ.dropLast)).length := by
        simp [List.length_dropLast, ← hlen]
        omega
      have htake : (c :: (A' ++ occ ++ B)).take L = (c :: (A' ++ occ.dropLast)).take L := by
        obtain ⟨t, ht⟩ := List.dropLast_prefix occ
        have hpref : (c :: (A' ++ occ.dropLast)) ++ (t ++ B) = c :: (A' ++ occ ++ B) := by
          show c :: ((A' ++ occ.dropLast) ++ (t ++ B)) = c :: (A' ++ occ ++ B)
          rw [List.append_assoc A' occ.dropLast, ← List.append_assoc occ.dropLast t B, ht,
            ← List.append_assoc]
        rw [← hpref, List.take_append_of_le_length hlenY]
      have hpredF : pred ((c :: (A' ++ occ.dropLast)).take L) = false := by
        unfold mOf at hYhead
        rw [if_pos hlenY] at hYhead
        cases hq : pred ((c :: (A' ++ occ.dropLast)).take L) with
        | false => rfl
        | true => rw [hq] at hYhead; simp at hYhead
      have hnone : mOf L pred (c :: (A' ++ occ ++ B)) = none := by
        unfold mOf
        rw [htake]
        simp [hpredF]
      have hpre' : searchP (mOf L pred) (A' ++ occ.dropLast) = false := by
        unfold searchP at hY
        cases hq : searchP (mOf L pred) (A' ++ occ.dropLast) with
        | false => rfl
        | true => rw [hq] at hY; simp at hY
      have ih' := ih hpre' f (by simp at hf ⊢; omega)
      have hnone' : mOf L pred (c :: (A' ++ (occ ++ B))) = none := by
        rw [← List.append_assoc]
        exact hnone
      have ih'' : subAllPAux (mOf L pred) repl f (A' ++ (occ ++ B)) = A' ++ repl ++ B := by
        rw [← List.append_assoc]
        exact ih'
      show subAllPAux (mOf L pred) repl (f + 1) (c :: (A' ++ occ ++ B)) =
        (c :: A') ++ repl ++ B
      simp [subAllPAux, hnone', ih'']

/- ### Lemmas: literal replace and timestamp replace -/

theorem litM_isSome (pat s : List Char) : (litM pat s).isSome = pat.isPrefixOf s := by
  unfold litM mOf
  by_cases h : pat.length ≤ s.length
  · rw [if_pos h]
    by_cases h2 : s.take pat.length = pat
    · have hpref : pat <+: s := by
        rw [ List.prefix_iff_eq_take]
        exact h2.symm
      rw [( List.isPrefixOf_iff_prefix).mpr hpref]
      simp [h2]
    · have hnpref : ¬ pat <+: s := by
        rw [ List.prefix_iff_eq_take]
        intro hx
        exact h2 hx.symm
      have hb : pat.isPrefixOf s = false := by
        cases hq : pat.isPrefixOf s with
        | false => rfl
        | true => exact absurd (( List.isPrefixOf_iff_prefix).mp hq) hnpref
      have hb2 : (s.take pat.length == pat) = false := by
        cases hq : s.take pat.length == pat with
        | false => rfl
        | true => exact absurd (beq_iff_eq.mp hq) h2
      simp [hb, hb2]
  · rw [if_neg h]
    have hb : pat.isPrefixOf s = false := by
      cases hq : pat.isPrefixOf s with
      | false => rfl
      | true => exact absurd (( List.isPrefixOf_iff_prefix).mp hq).length_le h
    simp [hb]

theorem searchP_litM (pat s : List Char) : searchP (litM pat) s = hasInf pat s := by
  induction s with
  | nil =>
    show (litM pat []).isSome = hasInf pat []
    rw [litM_isSome]
    cases pat with
    | nil => rfl
    | cons p ps => rfl
  | cons c rest ih =>
    show ((litM pat (c :: rest)).isSome || searchP (litM pat) rest) = hasInf pat (c :: rest)
    rw [litM_isSome, ih]
    unfold hasInf
    cases hq : pat.isPrefixOf (c :: rest) with
    | true => simp [findSplit, hq]
    | false =>
      simp only [findSplit, hq, Bool.false_or]
      cases hr : findSplit pat rest with
      | none => simp [hr]
      | some v => simp [hr]

theorem replaceAll_nomatch {pat s : List Char} (rep : List Char) (h : hasInf pat s = false) :
    replaceAll pat rep s = s := by
  unfold replaceAll
  exact subAllPAux_stop (by rw [searchP_litM]; exact h) _

theorem replaceAll_single (pat rep A B : List Char)
    (hpre : hasInf pat (A ++ pat.dropLast) = false)
    (hpost : hasInf pat B = false) :
    replaceAll pat rep (A ++ pat ++ B) = A ++ rep ++ B := by
  have hpre' : searchP (mOf pat.length (fun w => w == pat)) (A ++ pat.dropLast) = false := by
    rw [show (mOf pat.length (fun w => w == pat)) = litM pat from rfl, searchP_litM]
    exact hpre
  have hpost' : searchP (mOf pat.length (fun w => w == pat)) B = false := by
    rw [show (mOf pat.length (fun w => w == pat)) = litM pat from rfl, searchP_litM]
    exact hpost
  have h := subAllPAux_single pat.length (fun w => w == pat) rep A B rfl
    (beq_self_eq_true pat) hpre' hpost'
    ((A ++ pat ++ B).length + 1) (by simp)
  exact h

theorem stampOk_len {w : List Char} (h : stampOk w = true) : w.length = 19 := by
  unfold stampOk at h
  have := (Bool.and_eq_true _ _).mp h
  exact beq_iff_eq.mp this.1

theorem tsLine_len {now : List Char} (h : stampOk now = true) : (tsLine now).length = 70 := by
  have h19 := stampOk_len h
  have hh : tsHeadLit.length = 14 := rfl
  have ht : tsTailLit.length = 37 := rfl
  simp [tsLine, hh, ht, h19]

theorem tsPred_tsLine {now : List Char} (h : stampOk now = true) :
    tsPred (tsLine now) = true := by
  have h19 := stampOk_len h
  have h70 : (tsLine now).length = 70 := tsLine_len h
  have hhead : tsHeadLit.isPrefixOf (tsLine now) = true := by
    show tsHeadLit.isPrefixOf (tsHeadLit ++ now ++ tsTailLit) = true
    rw [List.append_assoc]
    exact isPrefixOf_append_self _ _
  have hdrop14 : (tsLine now).drop 14 = now ++ tsTailLit := by
    show (tsHeadLit ++ now ++ tsTailLit).drop 14 = now ++ tsTailLit
    rw [List.append_assoc]
    exact List.drop_left' rfl
  have htake19 : (now ++ tsTailLit).take 19 = now := List.take_left' h19
  have hdrop33 : (tsLine now).drop 33 = tsTailLit := by
    show (tsHeadLit ++ now ++ tsTailLit).drop 33 = tsTailLit
    exact List.drop_left' (by simp [h19]; rfl)
  have htail : tsTailLit.isPrefixOf tsTailLit = true := by
    have h2 := isPrefixOf_append_self tsTailLit []
    rw [List.append_nil] at h2
    exact h2
  unfold tsPred
  rw [hdrop14, htake19, hdrop33, hhead, htail, h70, h]
  rfl

theorem searchP_append_true (p : List Char → Option (List Char)) (A T : List Char)
    (h : (p T).isSome = true) : searchP p (A ++ T) = true := by
  induction A with
  | nil =>
    cases T with
    | nil => exact h
    | cons c r =>
      show ((p (c :: r)).isSome || searchP p r) = true
      simp [h]
  | cons c A' ih =>
    show ((p (c :: (A' ++ T))).isSome || searchP p (A' ++ T)) = true
    simp [ih]

theorem tsM_append {now : List Char} (B : List Char) (h : stampOk now = true) :
    tsM (tsLine now ++ B) = some B :=
  mOf_append 70 tsPred B (tsLine_len h) (tsPred_tsLine h)

theorem tsSearch_true (A B : List Char) {now : List Char} (h : stampOk now = true) :
    tsSearch (A ++ tsLine now ++ B) = true := by
  unfold tsSearch
  rw [List.append_assoc]
  exact searchP_append_true _ _ _ (by rw [tsM_append B h]; rfl)

theorem subTs_single (rep A B : List Char) {prev : List Char} (hst : stampOk prev = true)
    (hpre : searchP tsM (A ++ (tsLine prev).dropLast) = false)
    (hpost : searchP tsM B = false) :
    subTs rep (A ++ tsLine prev ++ B) = A ++ rep ++ B := by
  unfold subTs
  exact subAllPAux_single 70 tsPred rep A B (tsLine_len hst) (tsPred_tsLine hst)
    hpre hpost ((A ++ tsLine prev ++ B).length + 1) (by simp)

/- ### Lemmas: sorting and scanning -/

theorem mem_insertSorted {α : Type} (le : α → α → Bool) (e a : α) (l : List α) :
    a ∈ insertSorted le e l ↔ a = e ∨ a ∈ l := by
  induction l with
  | nil => simp [insertSorted]
  | cons x xs ih =>
    unfold insertSorted
    by_cases h : le e x = true
    · simp [h]
    · simp only [if_neg h, List.mem_cons, ih]
      tauto

theorem mem_insertionSort {α : Type} (le : α → α → Bool) (a : α) (l : List α) :
    a ∈ insertionSort le l ↔ a ∈ l := by
  induction l with
  | nil => simp [insertionSort]
  | cons x xs ih =>
    unfold insertionSort
    rw [mem_insertSorted, ih, List.mem_cons]

theorem pairwise_insertSorted {α : Type} (le : α → α → Bool)
    (htot : ∀ a b, le a b = true ∨ le b a = true)
    (htrans : ∀ a b c, le a b = true → le b c = true → le a c = true)
    (e : α) {l : List α} (h : l.Pairwise (fun a b => le a b = true)) :
    (insertSorted le e l).Pairwise (fun a b => le a b = true) := by
  induction l with
  | nil => simp [insertSorted]
  | cons x xs ih =>
    unfold insertSorted
    rcases List.pairwise_cons.mp h with ⟨hx, hxs⟩
    by_cases hle : le e x = true
    · rw [if_pos hle]
      refine List.pairwise_cons.mpr ⟨?_, h⟩
      intro a ha
      rcases List.mem_cons.mp ha with rfl | ha'
      · exact hle
      · exact htrans e x a hle (hx a ha')
    · rw [if_neg hle]
      refine List.pairwise_cons.mpr ⟨?_, ih hxs⟩
      intro a ha
      rcases (mem_insertSorted le e a xs).mp ha with rfl | ha'
      · rcases htot a x with hax | hxa
        · exact absurd hax hle
        · exact hxa
      · exact hx a ha'

theorem pairwise_insertionSort {α : Type} (le : α → α → Bool)
    (htot : ∀ a b, le a b = true ∨ le b a = true)
    (htrans : ∀ a b c, le a b = true → le b c = true → le a c = true)
    (l : List α) :
    (insertionSort le l).Pairwise (fun a b => le a b = true) := by
  induction l with
  | nil => simp [insertionSort]
  | cons x xs ih =>
    unfold insertionSort
    exact pairwise_insertSorted le htot htrans x ih

theorem lexLe_total (xs ys : List Char) : lexLe xs ys = true ∨ lexLe ys xs = true := by
  induction xs generalizing ys with
  | nil => exact Or.inl rfl
  | cons a as ih =>
    cases ys with
    | nil => exact Or.inr rfl
    | cons b bs =>
      unfold lexLe
      by_cases h1 : a.toNat < b.toNat
      · left
        simp [h1]
      · by_cases h2 : b.toNat < a.toNat
        · right
          simp [h2]
        · have he : a.toNat = b.toNat := by omega
          have heb : (a.toNat == b.toNat) = true := by simp [he]
          have heb' : (b.toNat == a.toNat) = true := by simp [he]
          rcases ih bs with h | h
          · left
            simp [h1, heb, h]
          · right
            simp [h2, heb', h]

theorem lexLe_trans (xs ys zs : List Char) (h1 : lexLe xs ys = true)
    (h2 : lexLe ys zs = true) : lexLe xs zs = true := by
  induction xs generalizing ys zs with
  | nil => rfl
  | cons a as ih =>
    cases ys with
    | nil => simp [lexLe] at h1
    | cons b bs =>
      cases zs with
      | nil => simp [lexLe] at h2
      | cons c cs =>
        unfold lexLe at h1 h2 ⊢
        by_cases hab : a.toNat < b.toNat
        · by_cases hbc : b.toNat < c.toNat
          · simp [show a.toNat < c.toNat by omega]
          · by_cases hbc2 : (b.toNat == c.toNat) = true
            · have he2 : b.toNat = c.toNat := by simpa using hbc2
              simp [show a.toNat < c.toNat by omega]
            · simp [hbc, hbc2] at h2
        · by_cases hab2 : (a.toNat == b.toNat) = true
          · have he : a.toNat = b.toNat := by simpa using hab2
            have h1' : lexLe as bs = true := by
              simp [hab, hab2] at h1
              exact h1
            by_cases hbc : b.toNat < c.toNat
            · simp [show a.toNat < c.toNat by omega]
            · by_cases hbc2 : (b.toNat == c.toNat) = true
              · have he2 : b.toNat = c.toNat := by simpa using hbc2
                have h2' : lexLe bs cs = true := by
                  simp [hbc, hbc2] at h2
                  exact h2
                by_cases hac : a.toNat < c.toNat
                · simp [hac]
                · have hace : (a.toNat == c.toNat) = true := by
                    simp
                    omega
                  simp [hac, hace, ih bs cs h1' h2']
              · simp [hbc, hbc2] at h2
          · simp [hab, hab2] at h1

theorem pySortRev_pairwise (fs : List Entry) :
    (pySortRev fs).Pairwise (fun a b => lexLe b.name.data a.name.data = true) := by
  unfold pySortRev
  rw [List.pairwise_reverse]
  exact pairwise_insertionSort (fun a b : Entry => lexLe a.name.data b.name.data)
    (fun a b => lexLe_total a.name.data b.name.data)
    (fun a b c hab hbc => lexLe_trans a.name.data b.name.data c.name.data hab hbc)
    fs

theorem mem_pySortRev {e : Entry} {fs : List Entry} : e ∈ pySortRev fs ↔ e ∈ fs := by
  unfold pySortRev
  rw [List.mem_reverse, mem_insertionSort]

theorem scanList_names {l : List Entry} {rs : List Record} (h : scanList l = .ok rs) :
    rs.map Record.name = (l.filter includedEntry).map Entry.name := by
  induction l generalizing rs with
  | nil =>
    simp [scanList] at h
    subst h
    rfl
  | cons e rest ih =>
    unfold scanList at h
    by_cases hc : (e.isDir && !(e.name == "__pycache__" || e.name == ".git")) = true
    · rw [if_pos hc] at h
      cases hm : matchWorkflowName e.name with
      | some g =>
        rw [hm] at h
        cases hl : load_workflow_metadata e.meta with
        | error er => rw [hl] at h; exact Except.noConfusion h
        | ok mw =>
          rw [hl] at h
          cases hs : scanList rest with
          | error er => rw [hs] at h; exact Except.noConfusion h
          | ok rs' =>
            rw [hs] at h
            have hrs : buildRecord e g mw.1 :: rs' = rs := Except.ok.inj h
            have hinc : includedEntry e = true := by
              simp [includedEntry, hm]
              simp at hc
              exact hc
            rw [← hrs]
            simp only [List.map_cons, List.filter_cons_of_pos hinc, ih hs]
            rfl
      | none =>
        rw [hm] at h
        have hinc : includedEntry e = false := by
          simp [includedEntry, hm]
        rw [List.filter_cons_of_neg (by simp [hinc])]
        exact ih h
    · rw [if_neg hc] at h
      have hinc : includedEntry e = false := by
        unfold includedEntry
        simp only [Bool.not_eq_true] at hc
        rw [hc]
        rfl
      rw [List.filter_cons_of_neg (by simp [hinc])]
      exact ih h

theorem scanList_isOk {l : List Entry}
    (h : ∀ e ∈ l, (load_workflow_metadata e.meta).isOk = true) :
    ∃ rs, scanList l = .ok rs := by
  induction l with
  | nil => exact ⟨[], rfl⟩
  | cons e rest ih =>
    obtain ⟨rs', hrs'⟩ := ih (fun x hx => h x (List.mem_cons_of_mem _ hx))
    unfold scanList
    by_cases hc : (e.isDir && !(e.name == "__pycache__" || e.name == ".git")) = true
    · rw [if_pos hc]
      cases hm : matchWorkflowName e.name with
      | none => exact ⟨rs', hrs'⟩
      | some g =>
        have hl := h e (List.mem_cons_self _ _)
        cases hload : load_workflow_metadata e.meta with
        | error er => rw [hload] at hl; simp [Except.isOk, Except.toBool] at hl
        | ok mw => rw [hrs']; exact ⟨buildRecord e g mw.1 :: rs', rfl⟩
    · rw [if_neg hc]
      exact ⟨rs', hrs'⟩

theorem scanList_mem_build {l : List Entry} {rs : List Record} (h : scanList l = .ok rs) :
    ∀ r ∈ rs, ∃ e g m, e ∈ l ∧ r = buildRecord e g m := by
  induction l generalizing rs with
  | nil =>
    simp [scanList] at h
    subst h
    intro r hr
    exact absurd hr (List.not_mem_nil r)
  | cons e rest ih =>
    unfold scanList at h
    by_cases hc : (e.isDir && !(e.name == "__pycache__" || e.name == ".git")) = true
    · rw [if_pos hc] at h
      cases hm : matchWorkflowName e.name with
      | some g =>
        rw [hm] at h
        cases hl : load_workflow_metadata e.meta with
        | error er => rw [hl] at h; exact Except.noConfusion h
        | ok mw =>
          rw [hl] at h
          cases hs : scanList rest with
          | error er => rw [hs] at h; exact Except.noConfusion h
          | ok rs' =>
            rw [hs] at h
            have hrs : buildRecord e g mw.1 :: rs' = rs := Except.ok.inj h
            intro r hr
            rw [← hrs] at hr
            rcases List.mem_cons.mp hr with hre | hrr
            · exact ⟨e, g, mw.1, List.mem_cons_self _ _, hre⟩
            · obtain ⟨e', g', m', he', hr'⟩ := ih hs r hrr
              exact ⟨e', g', m', List.mem_cons_of_mem _ he', hr'⟩
      | none =>
        rw [hm] at h
        intro r hr
        obtain ⟨e', g', m', he', hr'⟩ := ih h r hr
        exact ⟨e', g', m', List.mem_cons_of_mem _ he', hr'⟩
    · rw [if_neg hc] at h
      intro r hr
      obtain ⟨e', g', m', he', hr'⟩ := ih h r hr
      exact ⟨e', g', m', List.mem_cons_of_mem _ he', hr'⟩

/- ### Lemmas: the metadata loader -/

theorem isUnknownStr_false_ne {j : Json} (h : isUnknownStr j = false) :
    j ≠ Json.str ("Unknown") := by
  intro he
  subst he
  simp [isUnknownStr] at h

theorem loadBody_fields {data : Json} {m : MetaResult} (h : loadBody data = .ok m) :
    ∃ a r, actorOf data = .ok a ∧ releaseOf data = .ok r ∧
      m.actor = (if isUnknownStr a then Json.null else a) ∧
      m.release_version = (if isUnknownStr r then Json.null else r) := by
  unfold loadBody at h
  cases hA : actorOf data with
  | error e => simp only [hA] at h; exact Except.noConfusion h
  | ok a =>
    simp only [hA] at h
    cases hR : releaseOf data with
    | error e => simp only [hR] at h; exact Except.noConfusion h
    | ok r =>
      simp only [hR] at h
      refine ⟨a, r, rfl, rfl, ?_⟩
      cases hE : pyGet data ("execution") (Json.obj []) with
      | error e => simp only [hE] at h; exact Except.noConfusion h
      | ok ex =>
        simp only [hE] at h
        cases hS : pyGet ex ("started_at") (Json.str ("")) with
        | error e => simp only [hS] at h; exact Except.noConfusion h
        | ok sr =>
          simp only [hS] at h
          cases hT : pyStrip sr with
          | error e => simp only [hT] at h; exact Except.noConfusion h
          | ok st =>
            simp only [hT] at h
            cases hD : pyGet ex ("duration_formatted") Json.null with
            | error e => simp only [hD] at h; exact Except.noConfusion h
            | ok d0 =>
              simp only [hD] at h
              split at h
              · exact Except.noConfusion h
              · have hm := Except.ok.inj h
                rw [← hm]
                exact ⟨rfl, rfl⟩

theorem load_ok_no_sentinel {file : Option (Option Json)} {m : MetaResult} {w : Bool}
    (h : load_workflow_metadata file = .ok (m, w)) :
    m.actor ≠ Json.str ("Unknown") ∧ m.release_version ≠ Json.str ("Unknown") := by
  unfold load_workflow_metadata at h
  match file with
  | none =>
    have hm := Except.ok.inj h
    have : m = emptyMeta := congrArg Prod.fst hm.symm
    subst this
    exact ⟨fun hx => Json.noConfusion hx, fun hx => Json.noConfusion hx⟩
  | some none =>
    have hm := Except.ok.inj h
    have : m = emptyMeta := congrArg Prod.fst hm.symm
    subst this
    exact ⟨fun hx => Json.noConfusion hx, fun hx => Json.noConfusion hx⟩
  | some (some data) =>
    dsimp only at h
    cases hb : loadBody data with
    | ok m' =>
      rw [hb] at h
      dsimp only at h
      have hm := Except.ok.inj h
      have hmm : m = m' := congrArg Prod.fst hm.symm
      subst hmm
      obtain ⟨a, r, _, _, ha, hr⟩ := loadBody_fields hb
      constructor
      · rw [ha]
        cases hu : isUnknownStr a with
        | true => simp [hu]
        | false => simp [hu]; exact isUnknownStr_false_ne hu
      · rw [hr]
        cases hu : isUnknownStr r with
        | true => simp [hu]
        | false => simp [hu]; exact isUnknownStr_false_ne hu
    | error e =>
      rw [hb] at h
      cases e with
      | keyError =>
        dsimp only at h
        have hm := Except.ok.inj h
        have : m = emptyMeta := congrArg Prod.fst hm.symm
        subst this
        exact ⟨fun hx => Json.noConfusion hx, fun hx => Json.noConfusion hx⟩
      | attributeError => exact Except.noConfusion h

theorem actorOf_obj {dkvs wkvs : List (String × Json)}
    (hw : jlookup dkvs ("workflow") = some (Json.obj wkvs)) :
    actorOf (Json.obj dkvs) = .ok ((jlookup wkvs ("actor")).getD (Json.str ("Unknown"))) := by
  unfold actorOf pyGet
  dsimp only
  rw [hw]
  rfl

theorem releaseOf_obj {dkvs ikvs : List (String × Json)}
    (hi : jlookup dkvs ("inputs") = some (Json.obj ikvs)) :
    releaseOf (Json.obj dkvs) = .ok ((jlookup ikvs ("release-version")).getD (Json.str ("Unknown"))) := by
  unfold releaseOf pyGet
  dsimp only
  rw [hi]
  rfl

theorem actorOf_no_workflow {dkvs : List (String × Json)}
    (hw : jlookup dkvs ("workflow") = none) :
    actorOf (Json.obj dkvs) = .ok (Json.str ("Unknown")) := by
  unfold actorOf pyGet
  dsimp only
  rw [hw]
  rfl

theorem releaseOf_no_inputs {dkvs : List (String × Json)}
    (hi : jlookup dkvs ("inputs") = none) :
    releaseOf (Json.obj dkvs) = .ok (Json.str ("Unknown")) := by
  unfold releaseOf pyGet
  dsimp only
  rw [hi]
  rfl

theorem actorOf_unknown_of_absent {dkvs : List (String × Json)}
    (habs : jlookup dkvs ("workflow") = none ∨
      ∃ wkvs, jlookup dkvs ("workflow") = some (Json.obj wkvs) ∧
        jlookup wkvs ("actor") = none) :
    actorOf (Json.obj dkvs) = .ok (Json.str ("Unknown")) := by
  rcases habs with hw | ⟨wkvs, hw, ha⟩
  · exact actorOf_no_workflow hw
  · rw [actorOf_obj hw, ha]
    rfl

theorem releaseOf_unknown_of_absent {dkvs : List (String × Json)}
    (habs : jlookup dkvs ("inputs") = none ∨
      ∃ ikvs, jlookup dkvs ("inputs") = some (Json.obj ikvs) ∧
        jlookup ikvs ("release-version") = none) :
    releaseOf (Json.obj dkvs) = .ok (Json.str ("Unknown")) := by
  rcases habs with hi | ⟨ikvs, hi, hr⟩
  · exact releaseOf_no_inputs hi
  · rw [releaseOf_obj hi, hr]
    rfl

theorem actor_null_of_unknown {dkvs : List (String × Json)} {m : MetaResult}
    (hA2 : actorOf (Json.obj dkvs) = .ok (Json.str ("Unknown")))
    (h : loadBody (Json.obj dkvs) = .ok m) :
    m.actor = Json.null := by
  obtain ⟨a, _, hA, _, hma, _⟩ := loadBody_fields h
  have haa : a = Json.str ("Unknown") := Except.ok.inj (hA.symm.trans hA2)
  subst haa
  rw [hma]
  simp [isUnknownStr]

theorem release_null_of_unknown {dkvs : List (String × Json)} {m : MetaResult}
    (hR2 : releaseOf (Json.obj dkvs) = .ok (Json.str ("Unknown")))
    (h : loadBody (Json.obj dkvs) = .ok m) :
    m.release_version = Json.null := by
  obtain ⟨_, r, _, hR, _, hmr⟩ := loadBody_fields h
  have hrr : r = Json.str ("Unknown") := Except.ok.inj (hR.symm.trans hR2)
  subst hrr
  rw [hmr]
  simp [isUnknownStr]

/- ### Lemmas: renderer pipeline evaluation -/

theorem subPrePost_single' {pre post : List Char} (mid P M R : List Char)
    (h1 : hasInf pre (P ++ pre.dropLast) = false)
    (h2 : hasInf post (M ++ post.dropLast) = false)
    (h3 : hasInf pre R = false) :
    subPrePost pre post mid (P ++ (pre ++ (M ++ (post ++ R)))) =
      P ++ (pre ++ (mid ++ (post ++ R))) := by
  have h := subPrePost_single mid P M R h1 h2 h3
  simpa [List.append_assoc] using h

theorem searchPrePost_of_shape' {pre post : List Char} (P M R : List Char)
    (h1 : hasInf pre (P ++ pre.dropLast) = false)
    (h2 : hasInf post (M ++ post.dropLast) = false) :
    searchPrePost pre post (P ++ (pre ++ (M ++ (post ++ R)))) = true := by
  have h := searchPrePost_of_shape P M R h1 h2
  simpa [List.append_assoc] using h

theorem replaceAll_single' (pat rep A B : List Char)
    (hpre : hasInf pat (A ++ pat.dropLast) = false)
    (hpost : hasInf pat B = false) :
    replaceAll pat rep (A ++ (pat ++ B)) = A ++ (rep ++ B) := by
  have h := replaceAll_single pat rep A B hpre hpost
  simpa [List.append_assoc] using h

theorem subCFI_single' (repl B1 X R2 Y Z : List Char)
    (h1 : hasInf cfiHead (B1 ++ cfiHead.dropLast) = false)
    (h2 : hasInf retLit (X ++ retLit.dropLast) = false)
    (h3 : hasInf semiLit R2 = false)
    (h4 : hasInf braceLit Y = false)
    (h5 : hasInf cfiHead Z = false) :
    subCFI repl (B1 ++ (cfiHead ++ (X ++ (retLit ++ (R2 ++ (semiLit ++ (Y ++ (braceLit ++ Z)))))))) =
      B1 ++ (cfiHead ++ (X ++ (retLit ++ (repl ++ (semiLit ++ (Y ++ (braceLit ++ Z))))))) := by
  have h := subCFI_single repl B1 X R2 Y Z h1 h2 h3 h4 h5
  simpa [List.append_assoc] using h

theorem subTs_single' (rep A B : List Char) {prev : List Char} (hst : stampOk prev = true)
    (hpre : searchP tsM (A ++ (tsLine prev).dropLast) = false)
    (hpost : searchP tsM B = false) :
    subTs rep (A ++ (tsLine prev ++ B)) = A ++ (rep ++ B) := by
  have h := subTs_single rep A B hst hpre hpost
  simpa [List.append_assoc] using h

theorem tsSearch_true' (A B : List Char) {now : List Char} (h : stampOk now = true) :
    tsSearch (A ++ (tsLine now ++ B)) = true := by
  have h2 := tsSearch_true A B h
  simpa [List.append_assoc] using h2

theorem extractArrayBody_eval (P mid W : List Char)
    (h1 : hasInf newDecl (P ++ newDecl.dropLast) = false)
    (h2 : hasInf closeDecl (mid ++ closeDecl.dropLast) = false) :
    extractArrayBody (P ++ (newDecl ++ (mid ++ (closeDecl ++ W)))) = some mid := by
  unfold extractArrayBody
  simp only [findSplit_first' _ h1, findSplit_first' _ h2]

theorem extractLookup_eval (B1 X R2 W : List Char)
    (h1 : hasInf cfiHead (B1 ++ cfiHead.dropLast) = false)
    (h2 : hasInf retLit (X ++ retLit.dropLast) = false)
    (h3 : hasInf semiLit R2 = false) :
    extractLookup (B1 ++ (cfiHead ++ (X ++ (retLit ++ (R2 ++ (semiLit ++ W)))))) = some R2 := by
  have h3' : hasInf semiLit (R2 ++ semiLit.dropLast) = false := by
    rw [show semiLit.dropLast = ([] : List Char) from rfl, List.append_nil]
    exact h3
  unfold extractLookup
  simp only [findSplit_first' _ h1, findSplit_first' _ h2, findSplit_first' _ h3']

theorem update_eval_arrayOld (ws : List Record) (now P M R : List Char)
    (h1 : hasInf oldDecl (P ++ oldDecl.dropLast) = false)
    (h2 : hasInf closeDecl (M ++ closeDecl.dropLast) = false)
    (h3 : hasInf oldDecl R = false)
    (h4 : hasInf oldDecl (midJs ws ++ (closeDecl ++ R)) = false)
    (h5 : hasInf cfiHead (P ++ (newDecl ++ (midJs ws ++ (closeDecl ++ R)))) = false)
    (h6 : tsSearch (P ++ (newDecl ++ (midJs ws ++ (closeDecl ++ R)))) = false)
    (h7 : hasInf phLit (P ++ (newDecl ++ (midJs ws ++ (closeDecl ++ R)))) = false) :
    update_index_html ws now (some (P ++ (oldDecl ++ (M ++ (closeDecl ++ R))))) =
      (true, some (P ++ (newDecl ++ (midJs ws ++ (closeDecl ++ R))))) := by
  have hb1 := searchPrePost_of_shape' P M R h1 h2
  unfold update_index_html
  dsimp only
  rw [hb1]
  rw [if_pos rfl]
  rw [subPrePost_single' (midJs ws) P M R h1 h2 h3]
  rw [replaceAll_single' oldDecl newDecl P (midJs ws ++ (closeDecl ++ R)) h1 h4]
  rw [subCFI_nomatch h5]
  rw [h6]
  rw [if_neg (by simp)]
  rw [replaceAll_nomatch _ h7]

theorem update_eval_arrayNew (ws : List Record) (now P M R : List Char)
    (h0 : hasInf oldDecl (P ++ (newDecl ++ (M ++ (closeDecl ++ R)))) = false)
    (h1 : hasInf newDecl (P ++ newDecl.dropLast) = false)
    (h2 : hasInf closeDecl (M ++ closeDecl.dropLast) = false)
    (h3 : hasInf newDecl R = false)
    (h5 : hasInf cfiHead (P ++ (newDecl ++ (midJs ws ++ (closeDecl ++ R)))) = false)
    (h6 : tsSearch (P ++ (newDecl ++ (midJs ws ++ (closeDecl ++ R)))) = false)
    (h7 : hasInf phLit (P ++ (newDecl ++ (midJs ws ++ (closeDecl ++ R)))) = false) :
    update_index_html ws now (some (P ++ (newDecl ++ (M ++ (closeDecl ++ R))))) =
      (true, some (P ++ (newDecl ++ (midJs ws ++ (closeDecl ++ R))))) := by
  have hb0 := searchPrePost_false closeDecl h0
  have hb1 := searchPrePost_of_shape' P M R h1 h2
  unfold update_index_html
  dsimp only
  rw [hb0, hb1]
  rw [if_neg (show ¬ (false = true) by simp)]
  rw [if_pos (show true = true from rfl)]
  rw [subPrePost_single' (midJs ws) P M R h1 h2 h3]
  rw [subCFI_nomatch h5]
  rw [h6]
  rw [if_neg (show ¬ (false = true) by simp)]
  rw [replaceAll_nomatch _ h7]

theorem update_eval_full (ws : List Record) (now P M Q X R2 Y Z1 prev Z2 : List Char)
    (a1 : hasInf oldDecl
      (P ++ (newDecl ++ (M ++ (closeDecl ++ (Q ++ (cfiHead ++ (X ++ (retLit ++ (R2 ++
        (semiLit ++ (Y ++ (braceLit ++ (Z1 ++ (tsLine prev ++ Z2)))))))))))))) = false)
    (a2 : hasInf newDecl (P ++ newDecl.dropLast) = false)
    (a3 : hasInf closeDecl (M ++ closeDecl.dropLast) = false)
    (a4 : hasInf newDecl
      (Q ++ (cfiHead ++ (X ++ (retLit ++ (R2 ++ (semiLit ++ (Y ++ (braceLit ++
        (Z1 ++ (tsLine prev ++ Z2)))))))))) = false)
    (a5 : hasInf cfiHead
      ((P ++ (newDecl ++ (midJs ws ++ (closeDecl ++ Q)))) ++ cfiHead.dropLast) = false)
    (a6 : hasInf retLit (X ++ retLit.dropLast) = false)
    (a7 : hasInf semiLit R2 = false)
    (a8 : hasInf braceLit Y = false)
    (a9 : hasInf cfiHead (Z1 ++ (tsLine prev ++ Z2)) = false)
    (a10 : stampOk prev = true)
    (a11 : searchP tsM
      ((P ++ (newDecl ++ (midJs ws ++ (closeDecl ++ (Q ++ (cfiHead ++ (X ++ (retLit ++
        (cfiRepl ws ++ (semiLit ++ (Y ++ (braceLit ++ Z1)))))))))))) ++
        (tsLine prev).dropLast) = false)
    (a12 : searchP tsM Z2 = false) :
    update_index_html ws now
      (some (P ++ (newDecl ++ (M ++ (closeDecl ++ (Q ++ (cfiHead ++ (X ++ (retLit ++ (R2 ++
        (semiLit ++ (Y ++ (braceLit ++ (Z1 ++ (tsLine prev ++ Z2))))))))))))))) =
      (true, some (P ++ (newDecl ++ (midJs ws ++ (closeDecl ++ (Q ++ (cfiHead ++ (X ++
        (retLit ++ (cfiRepl ws ++ (semiLit ++ (Y ++ (braceLit ++ (Z1 ++
        (tsLine now ++ Z2))))))))))))))) := by
  have hb0 := searchPrePost_false closeDecl a1
  have hb1 := searchPrePost_of_shape' P M
    (Q ++ (cfiHead ++ (X ++ (retLit ++ (R2 ++ (semiLit ++ (Y ++ (braceLit ++
      (Z1 ++ (tsLine prev ++ Z2)))))))))) a2 a3
  unfold update_index_html
  dsimp only
  rw [hb0, hb1]
  rw [if_neg (show ¬ (false = true) by simp)]
  rw [if_pos (show true = true from rfl)]
  rw [subPrePost_single' (midJs ws) P M _ a2 a3 a4]
  rw [show P ++ (newDecl ++ (midJs ws ++ (closeDecl ++ (Q ++ (cfiHead ++ (X ++ (retLit ++
      (R2 ++ (semiLit ++ (Y ++ (braceLit ++ (Z1 ++ (tsLine prev ++ Z2))))))))))))) =
    (P ++ (newDecl ++ (midJs ws ++ (closeDecl ++ Q)))) ++ (cfiHead ++ (X ++ (retLit ++
      (R2 ++ (semiLit ++ (Y ++ (braceLit ++ (Z1 ++ (tsLine prev ++ Z2))))))))) by
    simp [List.append_assoc]]
  rw [subCFI_single' (cfiRepl ws) (P ++ (newDecl ++ (midJs ws ++ (closeDecl ++ Q)))) X R2 Y
    (Z1 ++ (tsLine prev ++ Z2)) a5 a6 a7 a8 a9]
  rw [show (P ++ (newDecl ++ (midJs ws ++ (closeDecl ++ Q)))) ++ (cfiHead ++ (X ++ (retLit ++
      (cfiRepl ws ++ (semiLit ++ (Y ++ (braceLit ++ (Z1 ++ (tsLine prev ++ Z2))))))))) =
    (P ++ (newDecl ++ (midJs ws ++ (closeDecl ++ (Q ++ (cfiHead ++ (X ++ (retLit ++
      (cfiRepl ws ++ (semiLit ++ (Y ++ (braceLit ++ Z1)))))))))))) ++
      (tsLine prev ++ Z2) by
    simp [List.append_assoc]]
  rw [tsSearch_true' _ Z2 a10]
  rw [if_pos (show true = true from rfl)]
  rw [subTs_single' (tsLine now) _ Z2 a10 a11 a12]
  rw [show (P ++ (newDecl ++ (midJs ws ++ (closeDecl ++ (Q ++ (cfiHead ++ (X ++ (retLit ++
      (cfiRepl ws ++ (semiLit ++ (Y ++ (braceLit ++ Z1)))))))))))) ++
      (tsLine now ++ Z2) =
    P ++ (newDecl ++ (midJs ws ++ (closeDecl ++ (Q ++ (cfiHead ++ (X ++ (retLit ++
      (cfiRepl ws ++ (semiLit ++ (Y ++ (braceLit ++ (Z1 ++ (tsLine now ++ Z2))))))))))))) by
    simp [List.append_assoc]]

/- ### Lemmas: duration arithmetic -/

theorem format02_natCast (k : Nat) :
    format02 ((k : Int)) = (if k < 10 then "0" ++ toString k else toString k) := by
  unfold format02
  have hts : toString ((k : Int)) = toString k := rfl
  by_cases hk : k < 10
  · have hc1 : ((k : Int)) < 10 := by exact_mod_cast hk
    have hc0 : (0 : Int) ≤ (k : Int) := Int.natCast_nonneg k
    simp [hk, hc1, hc0, hts]
  · have hc1 : ¬ ((k : Int)) < 10 := by exact_mod_cast hk
    simp [hk, hc1, hts]

/- ### Claim theorems -/

/-- C2 (amended).  For timestamps that both parse after the `'Z'`
normalization, with matching naive/aware status and `completed_at` not
before `started_at`, the computed duration is exactly the non-negative
difference in whole seconds rendered zero-padded as `HH:MM:SS`
(`specHMS`); in particular the spec's example yields `01:30:15`.  (As
stated originally the claim is false: a `completed_at` earlier than
`started_at` produces a negative rendering such as `-1:59:55`, not the
non-negative difference, and a naive/aware mix yields no duration at
all.) -/
theorem claim2_amended :
    (∀ (s e : String) (ds de : PyDateTime),
      pyFromIso (pyZfix s) = some ds →
      pyFromIso (pyZfix e) = some de →
      ds.offset.isSome = de.offset.isSome →
      pyInstant ds ≤ pyInstant de →
      calculate_duration s e = some (specHMS ((pyInstant de - pyInstant ds).toNat))) ∧
    calculate_duration ("2024-01-01T10:00:00Z") ("2024-01-01T11:30:15Z") =
      some ("01:30:15") := by
  constructor
  · intro s e ds de h1 h2 h3 h4
    have hs : s.data.isEmpty = false := by
      cases hq : s.data.isEmpty with
      | false => rfl
      | true =>
        have hd : s.data = [] := by simpa using hq
        have hz : pyFromIso (pyZfix s) = none := by
          unfold pyZfix
          rw [hd]
          rfl
        rw [hz] at h1
        exact Option.noConfusion h1
    have he : e.data.isEmpty = false := by
      cases hq : e.data.isEmpty with
      | false => rfl
      | true =>
        have hd : e.data = [] := by simpa using hq
        have hz : pyFromIso (pyZfix e) = none := by
          unfold pyZfix
          rw [hd]
          rfl
        rw [hz] at h2
        exact Option.noConfusion h2
    unfold calculate_duration
    rw [hs, he]
    rw [if_neg (show ¬ ((false || false) = true) by simp)]
    dsimp only
    simp only [h1, h2]
    have hbeq : (ds.offset.isSome == de.offset.isSome) = true := by
      rw [h3]
      exact beq_self_eq_true _
    rw [hbeq]
    rw [if_pos (show true = true from rfl)]
    have hT : 0 ≤ pyInstant de - pyInstant ds := by omega
    set T := pyInstant de - pyInstant ds with hTd
    lift T to Nat using hT with t ht
    have hem : ∀ a b : Int, a.emod b = a % b := fun _ _ => rfl
    simp only [hem]
    have e1 : ((t : Int)).fdiv 3600 = ((t / 3600 : Nat) : Int) := by
      rw [Int.fdiv_eq_ediv _ (by norm_num)]
      omega
    have e2 : ((t : Int)) % 3600 = ((t % 3600 : Nat) : Int) := by omega
    have e3 : (((t % 3600 : Nat) : Int)).fdiv 60 = ((t % 3600 / 60 : Nat) : Int) := by
      rw [Int.fdiv_eq_ediv _ (by norm_num)]
      omega
    have e4 : ((t : Int)) % 60 = ((t % 60 : Nat) : Int) := by omega
    have e5 : ((t : Int)).toNat = t := by omega
    rw [e1, e2, e3, e4, e5]
    rw [format02_natCast, format02_natCast, format02_natCast]
    rfl
  · rfl

/-- C2 counterexample: with `completed_at` five seconds before
`started_at`, the code renders `-1:59:55` (floor division and Python `%`
on a negative total), not the claimed non-negative difference
`00:00:05`. -/
theorem claim2_counterexample :
    calculate_duration ("2024-01-01T10:00:00Z") ("2024-01-01T09:59:55Z") =
      some ("-1:59:55") ∧
    specHMS 5 = "00:00:05" ∧ ("-1:59:55" : String) ≠ "00:00:05" := by
  refine ⟨rfl, rfl, ?_⟩
  decide

/-- C2 witness: the amended theorem applied to the spec's example pair. -/
theorem claim2_witness :
    pyFromIso (pyZfix ("2024-01-01T10:00:00Z")) = some ⟨1704103200, some 0⟩ ∧
    calculate_duration ("2024-01-01T10:00:00Z") ("2024-01-01T11:30:15Z") =
      some (specHMS ((pyInstant ⟨1704108615, some 0⟩ - pyInstant ⟨1704103200, some 0⟩).toNat)) := by
  constructor
  · rfl
  · exact claim2_amended.1 ("2024-01-01T10:00:00Z") ("2024-01-01T11:30:15Z")
      ⟨1704103200, some 0⟩ ⟨1704108615, some 0⟩ rfl rfl rfl (by decide)

/-- C9: `update_index_html` returns `false` exactly when the template
file does not exist; with any existing content — whether or not any of
the three patterns is found — it completes and returns `true`. -/
theorem claim9_return_value :
    ∀ (ws : List Record) (now : List Char),
      update_index_html ws now none = (false, none) ∧
      ∀ content, (update_index_html ws now (some content)).fst = true := by
  intro ws now
  exact ⟨rfl, fun content => rfl⟩

/-- C1 (amended).  A sidecar file that exists but is not valid JSON makes
the loader print the non-fatal warning and return all four optional
fields absent; and a scan whose per-directory loader calls all succeed —
in particular one mixing absent and invalid-JSON sidecars — always
completes.  (As originally stated the claim is false: a sidecar that
parses to JSON of the wrong shape, e.g. a top-level array, raises an
uncaught `AttributeError` — the `except` clause only catches
`JSONDecodeError` and `KeyError` — aborting the scan; and an object with
the expected keys merely missing defaults silently, with no warning.) -/
theorem claim1_amended :
    load_workflow_metadata (some none) = .ok (emptyMeta, true) ∧
    (∀ fs : List Entry, (∀ e ∈ fs, (load_workflow_metadata e.meta).isOk = true) →
      (scan_workflow_directories fs).isOk = true) := by
  constructor
  · rfl
  · intro fs h
    have h' : ∀ e ∈ pySortRev fs, (load_workflow_metadata e.meta).isOk = true :=
      fun e he => h e (mem_pySortRev.mp he)
    obtain ⟨rs, hrs⟩ := scanList_isOk h'
    unfold scan_workflow_directories
    rw [hrs]
    rfl

/-- C1 counterexample: a sidecar holding `[]` is valid JSON of the wrong
shape; the loader raises an uncaught `AttributeError` and the scan of
`abortEntries` aborts, never reaching the second directory. -/
theorem claim1_counterexample :
    load_workflow_metadata (some (some (Json.arr []))) = .error PyErr.attributeError ∧
    scan_workflow_directories abortEntries = .error PyErr.attributeError := by
  exact ⟨rfl, rfl⟩

/-- C1 witness: the amended theorem at a scan mixing an invalid-JSON
sidecar with an absent one. -/
theorem claim1_witness :
    (∀ e ∈ badJsonEntries, (load_workflow_metadata e.meta).isOk = true) ∧
    (scan_workflow_directories badJsonEntries).isOk = true := by
  have hyp : ∀ e ∈ badJsonEntries, (load_workflow_metadata e.meta).isOk = true := by
    intro e he
    simp only [badJsonEntries, List.mem_cons, List.not_mem_nil, or_false] at he
    rcases he with rfl | rfl
    · rfl
    · rfl
  exact ⟨hyp, claim1_amended.2 badJsonEntries hyp⟩

/-- C3 (amended).  The scanner's records are ordered by descending
lexicographic directory name — equivalently, newest date first, with
same-date ties broken by the descending lexicographic run-id string —
and the spec's three-directory example renders in the stated order.  (As
originally stated the claim is false: the lexicographic tie-break agrees
with descending *numeric* run id only when the run ids have equal digit
counts; see the counterexample with ids 9 and 10.) -/
theorem claim3_amended :
    (∀ (fs : List Entry) (rs : List Record),
      scan_workflow_directories fs = .ok rs →
      (rs.map Record.name).Pairwise (fun a b => lexLe b.data a.data = true)) ∧
    (scan_workflow_directories exEntries).map (fun rs => rs.map Record.name) =
      .ok [("2024-01-02-5"), ("2024-01-02-3"), ("2024-01-01-9")] := by
  constructor
  · intro fs rs h
    unfold scan_workflow_directories at h
    rw [scanList_names h]
    rw [List.pairwise_map]
    exact List.Pairwise.sublist (List.filter_sublist _) (pySortRev_pairwise fs)
  · rfl

/-- C3 counterexample: same-date run ids `9` and `10`; the scanner lists
`2024-01-01-9` first, but newest-first order with numerically descending
run ids (`specNewestFirstNames`, modelled from the spec's words) lists
`2024-01-01-10` first. -/
theorem claim3_counterexample :
    (scan_workflow_directories cfEntries).map (fun rs => rs.map Record.name) =
      .ok [("2024-01-01-9"), ("2024-01-01-10")] ∧
    specNewestFirstNames cfEntries = [("2024-01-01-10"), ("2024-01-01-9")] ∧
    (["2024-01-01-9", "2024-01-01-10"] : List String) ≠
      ["2024-01-01-10", "2024-01-01-9"] := by
  refine ⟨rfl, rfl, ?_⟩
  decide

/-- C3 witness: the amended ordering theorem at the spec's example
input. -/
theorem claim3_witness :
    scan_workflow_directories exEntries = .ok exRecords ∧
    (exRecords.map Record.name).Pairwise (fun a b => lexLe b.data a.data = true) := by
  constructor
  · rfl
  · exact claim3_amended.1 exEntries exRecords rfl

/-- C7: an immediate subdirectory of the base directory appears in the
scan output exactly when its name matches the
`^(\d{4})-(\d{2})-(\d{2})-(\d+)` prefix pattern and is neither
`__pycache__` nor `.git`. -/
theorem claim7_inclusion :
    ∀ (fs : List Entry) (rs : List Record),
      scan_workflow_directories fs = .ok rs →
      ∀ e ∈ fs, e.isDir = true →
        (e.name ∈ rs.map Record.name ↔
          ((matchWorkflowName e.name).isSome = true ∧
            e.name ≠ "__pycache__" ∧ e.name ≠ ".git")) := by
  intro fs rs h e he hdir
  unfold scan_workflow_directories at h
  rw [scanList_names h]
  constructor
  · intro hmem
    obtain ⟨e', he', hname⟩ := List.mem_map.mp hmem
    have hf := List.mem_filter.mp he'
    have hinc := hf.2
    unfold includedEntry at hinc
    have h1 := (Bool.and_eq_true _ _).mp hinc
    have h2 := (Bool.and_eq_true _ _).mp h1.1
    have h3 : (e'.name == "__pycache__" || e'.name == ".git") = false := by
      simpa using h2.2
    have h4 : e'.name ≠ "__pycache__" ∧ e'.name ≠ ".git" := by
      simpa using h3
    exact ⟨hname ▸ h1.2, hname ▸ h4.1, hname ▸ h4.2⟩
  · intro hcond
    apply List.mem_map.mpr
    refine ⟨e, ?_, rfl⟩
    apply List.mem_filter.mpr
    refine ⟨mem_pySortRev.mpr he, ?_⟩
    unfold includedEntry
    simp [hdir, hcond.1, hcond.2.1, hcond.2.2]

/-- C7 witness: the inclusion criterion at a concrete listing with a
matching directory, a non-matching directory, and a matching
non-directory. -/
theorem claim7_witness :
    scan_workflow_directories incEntries = .ok incRecords ∧
    ((("2024-01-05-7") : String) ∈ incRecords.map Record.name ↔
      ((matchWorkflowName ("2024-01-05-7")).isSome = true ∧
        ("2024-01-05-7" : String) ≠ "__pycache__" ∧
        ("2024-01-05-7" : String) ≠ ".git")) := by
  refine ⟨rfl, ?_⟩
  exact claim7_inclusion incEntries incRecords rfl ⟨("2024-01-05-7"), true, [], none⟩
    (List.mem_cons_self _ _) rfl

/-- C8: every scanned record's `job_count` equals the number of direct
child subdirectories of its entry, and appending extra non-directory
children (files, including the metadata and summary files) never changes
it. -/
theorem claim8_job_count :
    (∀ (fs : List Entry) (rs : List Record),
      scan_workflow_directories fs = .ok rs →
      ∀ r ∈ rs, ∃ e, e ∈ fs ∧ r.name = e.name ∧
        r.job_count = (e.children.filter (fun c => c.isDir)).length) ∧
    (∀ (e : Entry) (extra : List Child) (g : String × String × String × String)
        (m : MetaResult),
      (∀ c ∈ extra, c.isDir = false) →
      (buildRecord { e with children := e.children ++ extra } g m).job_count =
        (buildRecord e g m).job_count) := by
  constructor
  · intro fs rs h r hr
    unfold scan_workflow_directories at h
    obtain ⟨e, g, m, he, hre⟩ := scanList_mem_build h r hr
    exact ⟨e, mem_pySortRev.mp he, by rw [hre]; rfl, by rw [hre]; rfl⟩
  · intro e extra g m hx
    unfold buildRecord
    dsimp only
    rw [List.filter_append]
    have hnil : extra.filter (fun c => c.isDir) = [] := by
      rw [List.filter_eq_nil_iff]
      intro c hc
      simp [hx c hc]
    rw [hnil, List.append_nil]

/-- C8 witness: a directory with two job subdirectories and two files
scans to `job_count = 2`, and appending one more file leaves the count
unchanged. -/
theorem claim8_witness :
    scan_workflow_directories [jobsEntry] =
      .ok [⟨("2024-02-01-4"), ("2024"), ("02"), ("01"), ("4"), true, 2,
        .null, .null, .null, .null⟩] ∧
    (∃ e, e ∈ [jobsEntry] ∧
      (⟨("2024-02-01-4"), ("2024"), ("02"), ("01"), ("4"), true, 2,
        .null, .null, .null, .null⟩ : Record).name = e.name ∧
      (⟨("2024-02-01-4"), ("2024"), ("02"), ("01"), ("4"), true, 2,
        .null, .null, .null, .null⟩ : Record).job_count =
        (e.children.filter (fun c => c.isDir)).length) ∧
    (buildRecord { jobsEntry with children := jobsEntry.children ++ [⟨("extra.log"), false⟩] }
        (("2024"), ("02"), ("01"), ("4")) emptyMeta).job_count =
      (buildRecord jobsEntry (("2024"), ("02"), ("01"), ("4")) emptyMeta).job_count := by
  refine ⟨rfl, ?_, ?_⟩
  · exact claim8_job_count.1 [jobsEntry] _ rfl _ (List.mem_cons_self _ _)
  · exact claim8_job_count.2 jobsEntry [⟨("extra.log"), false⟩]
      (("2024"), ("02"), ("01"), ("4")) emptyMeta (by decide)

/-- C6: every successful load surfaces neither field as the literal
"Unknown" sentinel; moreover, per field and with no assumption on the
other field: whenever the nested `workflow.actor` is absent (the
`workflow` key missing entirely, or present as an object without an
`actor` key) a successful load returns `actor` absent (`Json.null`), and
whenever `inputs.release-version` is absent a successful load returns
`release_version` absent. -/
theorem claim6_sentinel :
    (∀ (file : Option (Option Json)) (m : MetaResult) (w : Bool),
      load_workflow_metadata file = .ok (m, w) →
      m.actor ≠ Json.str ("Unknown") ∧ m.release_version ≠ Json.str ("Unknown")) ∧
    (∀ (dkvs : List (String × Json)) (m : MetaResult),
      (jlookup dkvs ("workflow") = none ∨
        ∃ wkvs, jlookup dkvs ("workflow") = some (Json.obj wkvs) ∧
          jlookup wkvs ("actor") = none) →
      loadBody (Json.obj dkvs) = .ok m →
      m.actor = Json.null) ∧
    (∀ (dkvs : List (String × Json)) (m : MetaResult),
      (jlookup dkvs ("inputs") = none ∨
        ∃ ikvs, jlookup dkvs ("inputs") = some (Json.obj ikvs) ∧
          jlookup ikvs ("release-version") = none) →
      loadBody (Json.obj dkvs) = .ok m →
      m.release_version = Json.null) := by
  refine ⟨?_, ?_, ?_⟩
  · intro file m w h
    exact load_ok_no_sentinel h
  · intro dkvs m habs h
    exact actor_null_of_unknown (actorOf_unknown_of_absent habs) h
  · intro dkvs m habs h
    exact release_null_of_unknown (releaseOf_unknown_of_absent habs) h

/-- C6 witness: the per-field sentinel theorem exercised on a sidecar
missing the `workflow` key entirely, a sidecar whose `workflow` object
lacks `actor` while `release-version` is a real value, and a sidecar
missing the `inputs` key while `actor` is a real value. -/
theorem claim6_witness :
    loadBody (Json.obj mdNoWorkflow) =
      .ok ⟨Json.null, Json.str ("1.0"), Json.null, Json.null⟩ ∧
    loadBody (Json.obj mdNoActor) =
      .ok ⟨Json.null, Json.str ("1.0"), Json.null, Json.null⟩ ∧
    loadBody (Json.obj mdNoInputs) =
      .ok ⟨Json.str ("alice"), Json.null, Json.null, Json.null⟩ ∧
    (⟨Json.null, Json.str ("1.0"), Json.null, Json.null⟩ : MetaResult).actor = Json.null ∧
    (⟨Json.str ("alice"), Json.null, Json.null, Json.null⟩ : MetaResult).release_version =
      Json.null ∧
    (⟨Json.str ("alice"), Json.null, Json.null, Json.null⟩ : MetaResult).actor ≠
      Json.str ("Unknown") := by
  refine ⟨rfl, rfl, rfl, ?_, ?_, ?_⟩
  · exact claim6_sentinel.2.1 mdNoActor
      ⟨Json.null, Json.str ("1.0"), Json.null, Json.null⟩
      (Or.inr ⟨[], rfl, rfl⟩) rfl
  · exact claim6_sentinel.2.2 mdNoInputs
      ⟨Json.str ("alice"), Json.null, Json.null, Json.null⟩
      (Or.inl rfl) rfl
  · exact (claim6_sentinel.1 (some (some (Json.obj mdNoInputs)))
      ⟨Json.str ("alice"), Json.null, Json.null, Json.null⟩ false rfl).1

/-- C10: an explicit literal `"Unknown"` stored in `workflow.actor`, or
one stored in `inputs.release-version`, is normalized to absent — each
field independently, with no assumption on the other field — and the
resulting field equals the corresponding field of any successful load of
a file in which that nested key (or its whole parent object) is missing
entirely. -/
theorem claim10_explicit_unknown :
    (∀ (dkvs wkvs : List (String × Json)) (m : MetaResult),
      jlookup dkvs ("workflow") = some (Json.obj wkvs) →
      jlookup wkvs ("actor") = some (Json.str ("Unknown")) →
      loadBody (Json.obj dkvs) = .ok m →
      m.actor = Json.null ∧
      ∀ (dkvs' : List (String × Json)) (m' : MetaResult),
        (jlookup dkvs' ("workflow") = none ∨
          ∃ wkvs', jlookup dkvs' ("workflow") = some (Json.obj wkvs') ∧
            jlookup wkvs' ("actor") = none) →
        loadBody (Json.obj dkvs') = .ok m' →
        m.actor = m'.actor) ∧
    (∀ (dkvs ikvs : List (String × Json)) (m : MetaResult),
      jlookup dkvs ("inputs") = some (Json.obj ikvs) →
      jlookup ikvs ("release-version") = some (Json.str ("Unknown")) →
      loadBody (Json.obj dkvs) = .ok m →
      m.release_version = Json.null ∧
      ∀ (dkvs' : List (String × Json)) (m' : MetaResult),
        (jlookup dkvs' ("inputs") = none ∨
          ∃ ikvs', jlookup dkvs' ("inputs") = some (Json.obj ikvs') ∧
            jlookup ikvs' ("release-version") = none) →
        loadBody (Json.obj dkvs') = .ok m' →
        m.release_version = m'.release_version) := by
  constructor
  · intro dkvs wkvs m hw ha h
    have hA2 : actorOf (Json.obj dkvs) = .ok (Json.str ("Unknown")) := by
      rw [actorOf_obj hw, ha]
      rfl
    have hma : m.actor = Json.null := actor_null_of_unknown hA2 h
    refine ⟨hma, ?_⟩
    intro dkvs' m' habs h'
    rw [hma, actor_null_of_unknown (actorOf_unknown_of_absent habs) h']
  · intro dkvs ikvs m hi hr h
    have hR2 : releaseOf (Json.obj dkvs) = .ok (Json.str ("Unknown")) := by
      rw [releaseOf_obj hi, hr]
      rfl
    have hmr : m.release_version = Json.null := release_null_of_unknown hR2 h
    refine ⟨hmr, ?_⟩
    intro dkvs' m' habs h'
    rw [hmr, release_null_of_unknown (releaseOf_unknown_of_absent habs) h']

/-- C10 witness: a sidecar whose only explicit `"Unknown"` is
`workflow.actor` (with a real `release-version`) loads with `actor`
absent and equal to that of a sidecar missing the `workflow` key
entirely; a sidecar whose only explicit `"Unknown"` is
`inputs.release-version` (with a real `actor`) loads with
`release_version` absent and equal to that of a sidecar missing the
`inputs` key entirely. -/
theorem claim10_witness :
    loadBody (Json.obj mdActorUnknown) =
      .ok ⟨Json.null, Json.str ("1.0"), Json.null, Json.null⟩ ∧
    loadBody (Json.obj mdActorMissing) =
      .ok ⟨Json.null, Json.str ("2.0"), Json.null, Json.null⟩ ∧
    (⟨Json.null, Json.str ("1.0"), Json.null, Json.null⟩ : MetaResult).actor = Json.null ∧
    (⟨Json.null, Json.str ("1.0"), Json.null, Json.null⟩ : MetaResult).actor =
      (⟨Json.null, Json.str ("2.0"), Json.null, Json.null⟩ : MetaResult).actor ∧
    loadBody (Json.obj mdRelUnknown) =
      .ok ⟨Json.str ("bob"), Json.null, Json.null, Json.null⟩ ∧
    loadBody (Json.obj mdRelMissing) =
      .ok ⟨Json.str ("carol"), Json.null, Json.null, Json.null⟩ ∧
    (⟨Json.str ("bob"), Json.null, Json.null, Json.null⟩ : MetaResult).release_version =
      Json.null ∧
    (⟨Json.str ("bob"), Json.null, Json.null, Json.null⟩ : MetaResult).release_version =
      (⟨Json.str ("carol"), Json.null, Json.null, Json.null⟩ : MetaResult).release_version := by
  have h1 := claim10_explicit_unknown.1 mdActorUnknown
    [(("actor"), Json.str ("Unknown"))]
    ⟨Json.null, Json.str ("1.0"), Json.null, Json.null⟩ rfl rfl rfl
  have h2 := claim10_explicit_unknown.2 mdRelUnknown
    [(("release-version"), Json.str ("Unknown"))]
    ⟨Json.str ("bob"), Json.null, Json.null, Json.null⟩ rfl rfl rfl
  exact ⟨rfl, rfl, h1.1,
    h1.2 mdActorMissing ⟨Json.null, Json.str ("2.0"), Json.null, Json.null⟩ (Or.inl rfl) rfl,
    rfl, rfl, h2.1,
    h2.2 mdRelMissing ⟨Json.str ("carol"), Json.null, Json.null, Json.null⟩ (Or.inl rfl) rfl⟩

/-- C4: for a well-formed template whose content contains a rendered
data array under either the old (`const workflowDirectories = [`) or the
new (`const workflowData = [`) convention, the renderer produces a
template whose declaration uses the new convention name and whose array
body is exactly the rendered current record sequence (`midJs ws`),
regardless of the starting convention.  Well-formedness is the listed
occurrence side conditions: the declaration and terminator occur where
the decomposition says and nowhere earlier, and the template carries no
`checkForIndex` pattern, timestamp line or footer placeholder that
would let the later rewrite steps touch the array region. -/
theorem claim4_convention :
    (∀ (ws : List Record) (now P M R : List Char),
      hasInf oldDecl (P ++ oldDecl.dropLast) = false →
      hasInf closeDecl (M ++ closeDecl.dropLast) = false →
      hasInf oldDecl R = false →
      hasInf oldDecl (midJs ws ++ (closeDecl ++ R)) = false →
      hasInf cfiHead (P ++ (newDecl ++ (midJs ws ++ (closeDecl ++ R)))) = false →
      tsSearch (P ++ (newDecl ++ (midJs ws ++ (closeDecl ++ R)))) = false →
      hasInf phLit (P ++ (newDecl ++ (midJs ws ++ (closeDecl ++ R)))) = false →
      hasInf newDecl (P ++ newDecl.dropLast) = false →
      hasInf closeDecl (midJs ws ++ closeDecl.dropLast) = false →
      update_index_html ws now (some (P ++ (oldDecl ++ (M ++ (closeDecl ++ R))))) =
        (true, some (P ++ (newDecl ++ (midJs ws ++ (closeDecl ++ R))))) ∧
      extractArrayBody (P ++ (newDecl ++ (midJs ws ++ (closeDecl ++ R)))) =
        some (midJs ws)) ∧
    (∀ (ws : List Record) (now P M R : List Char),
      hasInf oldDecl (P ++ (newDecl ++ (M ++ (closeDecl ++ R)))) = false →
      hasInf newDecl (P ++ newDecl.dropLast) = false →
      hasInf closeDecl (M ++ closeDecl.dropLast) = false →
      hasInf newDecl R = false →
      hasInf cfiHead (P ++ (newDecl ++ (midJs ws ++ (closeDecl ++ R)))) = false →
      tsSearch (P ++ (newDecl ++ (midJs ws ++ (closeDecl ++ R)))) = false →
      hasInf phLit (P ++ (newDecl ++ (midJs ws ++ (closeDecl ++ R)))) = false →
      hasInf closeDecl (midJs ws ++ closeDecl.dropLast) = false →
      update_index_html ws now (some (P ++ (newDecl ++ (M ++ (closeDecl ++ R))))) =
        (true, some (P ++ (newDecl ++ (midJs ws ++ (closeDecl ++ R))))) ∧
      extractArrayBody (P ++ (newDecl ++ (midJs ws ++ (closeDecl ++ R)))) =
        some (midJs ws)) := by
  constructor
  · intro ws now P M R h1 h2 h3 h4 h5 h6 h7 h8 h9
    exact ⟨update_eval_arrayOld ws now P M R h1 h2 h3 h4 h5 h6 h7,
      extractArrayBody_eval P (midJs ws) R h8 h9⟩
  · intro ws now P M R h0 h1 h2 h3 h5 h6 h7 h9
    exact ⟨update_eval_arrayNew ws now P M R h0 h1 h2 h3 h5 h6 h7,
      extractArrayBody_eval P (midJs ws) R h1 h9⟩

set_option maxRecDepth 100000 in
/-- C4 witness: the convention theorem at a concrete template in each
convention; both runs produce the same new-convention output with the
rendered body. -/
theorem claim4_witness :
    update_index_html wsW stamp1 (some (tplP ++ (oldDecl ++ (tplM ++ (closeDecl ++ tplR))))) =
      (true, some (tplP ++ (newDecl ++ (midJs wsW ++ (closeDecl ++ tplR))))) ∧
    extractArrayBody (tplP ++ (newDecl ++ (midJs wsW ++ (closeDecl ++ tplR)))) =
      some (midJs wsW) ∧
    update_index_html wsW stamp1 (some (tplP ++ (newDecl ++ (tplM ++ (closeDecl ++ tplR))))) =
      (true, some (tplP ++ (newDecl ++ (midJs wsW ++ (closeDecl ++ tplR))))) := by
  obtain ⟨ho1, ho2⟩ := claim4_convention.1 wsW stamp1 tplP tplM tplR
    rfl rfl rfl rfl rfl rfl rfl rfl rfl
  obtain ⟨hn1, _⟩ := claim4_convention.2 wsW stamp1 tplP tplM tplR
    rfl rfl rfl rfl rfl rfl rfl rfl
  exact ⟨ho1, ho2, hn1⟩

/-- C5: running the renderer twice on the same well-formed template with
the same record sequence produces identical data-array content and
identical lookup-list content; the two outputs differ only in the
timestamp segment (`tsLine now1` vs `tsLine now2`).  Well-formedness is
the listed occurrence side conditions for both runs: every pattern the
renderer rewrites occurs exactly where the decomposition says and
nowhere earlier, both clock stamps have the rendered `strftime` shape,
and the spliced record and lookup texts do not themselves contain the
patterns. -/
theorem claim5_idempotent :
    ∀ (ws : List Record) (now1 now2 P M Q X R2 Y Z1 prev Z2 : List Char),
      hasInf oldDecl
        (P ++ (newDecl ++ (M ++ (closeDecl ++ (Q ++ (cfiHead ++ (X ++ (retLit ++ (R2 ++
          (semiLit ++ (Y ++ (braceLit ++ (Z1 ++ (tsLine prev ++ Z2)))))))))))))) = false →
      hasInf newDecl (P ++ newDecl.dropLast) = false →
      hasInf closeDecl (M ++ closeDecl.dropLast) = false →
      hasInf newDecl
        (Q ++ (cfiHead ++ (X ++ (retLit ++ (R2 ++ (semiLit ++ (Y ++ (braceLit ++
          (Z1 ++ (tsLine prev ++ Z2)))))))))) = false →
      hasInf cfiHead
        ((P ++ (newDecl ++ (midJs ws ++ (closeDecl ++ Q)))) ++ cfiHead.dropLast) = false →
      hasInf retLit (X ++ retLit.dropLast) = false →
      hasInf semiLit R2 = false →
      hasInf braceLit Y = false →
      hasInf cfiHead (Z1 ++ (tsLine prev ++ Z2)) = false →
      stampOk prev = true →
      searchP tsM
        ((P ++ (newDecl ++ (midJs ws ++ (closeDecl ++ (Q ++ (cfiHead ++ (X ++ (retLit ++
          (cfiRepl ws ++ (semiLit ++ (Y ++ (braceLit ++ Z1)))))))))))) ++
          (tsLine prev).dropLast) = false →
      searchP tsM Z2 = false →
      hasInf oldDecl
        (P ++ (newDecl ++ (midJs ws ++ (closeDecl ++ (Q ++ (cfiHead ++ (X ++ (retLit ++
          (cfiRepl ws ++ (semiLit ++ (Y ++ (braceLit ++ (Z1 ++
          (tsLine now1 ++ Z2)))))))))))))) = false →
      hasInf closeDecl (midJs ws ++ closeDecl.dropLast) = false →
      hasInf newDecl
        (Q ++ (cfiHead ++ (X ++ (retLit ++ (cfiRepl ws ++ (semiLit ++ (Y ++ (braceLit ++
          (Z1 ++ (tsLine now1 ++ Z2)))))))))) = false →
      hasInf semiLit (cfiRepl ws) = false →
      hasInf cfiHead (Z1 ++ (tsLine now1 ++ Z2)) = false →
      stampOk now1 = true →
      searchP tsM
        ((P ++ (newDecl ++ (midJs ws ++ (closeDecl ++ (Q ++ (cfiHead ++ (X ++ (retLit ++
          (cfiRepl ws ++ (semiLit ++ (Y ++ (braceLit ++ Z1)))))))))))) ++
          (tsLine now1).dropLast) = false →
      update_index_html ws now1
        (some (P ++ (newDecl ++ (M ++ (closeDecl ++ (Q ++ (cfiHead ++ (X ++ (retLit ++
          (R2 ++ (semiLit ++ (Y ++ (braceLit ++ (Z1 ++ (tsLine prev ++ Z2))))))))))))))) =
        (true, some (P ++ (newDecl ++ (midJs ws ++ (closeDecl ++ (Q ++ (cfiHead ++ (X ++
          (retLit ++ (cfiRepl ws ++ (semiLit ++ (Y ++ (braceLit ++ (Z1 ++
          (tsLine now1 ++ Z2))))))))))))))) ∧
      update_index_html ws now2
        (some (P ++ (newDecl ++ (midJs ws ++ (closeDecl ++ (Q ++ (cfiHead ++ (X ++
          (retLit ++ (cfiRepl ws ++ (semiLit ++ (Y ++ (braceLit ++ (Z1 ++
          (tsLine now1 ++ Z2))))))))))))))) =
        (true, some (P ++ (newDecl ++ (midJs ws ++ (closeDecl ++ (Q ++ (cfiHead ++ (X ++
          (retLit ++ (cfiRepl ws ++ (semiLit ++ (Y ++ (braceLit ++ (Z1 ++
          (tsLine now2 ++ Z2))))))))))))))) ∧
      extractArrayBody (P ++ (newDecl ++ (midJs ws ++ (closeDecl ++ (Q ++ (cfiHead ++ (X ++
          (retLit ++ (cfiRepl ws ++ (semiLit ++ (Y ++ (braceLit ++ (Z1 ++
          (tsLine now2 ++ Z2)))))))))))))) =
        extractArrayBody (P ++ (newDecl ++ (midJs ws ++ (closeDecl ++ (Q ++ (cfiHead ++ (X ++
          (retLit ++ (cfiRepl ws ++ (semiLit ++ (Y ++ (braceLit ++ (Z1 ++
          (tsLine now1 ++ Z2)))))))))))))) ∧
      extractLookup (P ++ (newDecl ++ (midJs ws ++ (closeDecl ++ (Q ++ (cfiHead ++ (X ++
          (retLit ++ (cfiRepl ws ++ (semiLit ++ (Y ++ (braceLit ++ (Z1 ++
          (tsLine now2 ++ Z2)))))))))))))) =
        extractLookup (P ++ (newDecl ++ (midJs ws ++ (closeDecl ++ (Q ++ (cfiHead ++ (X ++
          (retLit ++ (cfiRepl ws ++ (semiLit ++ (Y ++ (braceLit ++ (Z1 ++
          (tsLine now1 ++ Z2)))))))))))))) := by
  intro ws now1 now2 P M Q X R2 Y Z1 prev Z2
  intro a1 a2 a3 a4 a5 a6 a7 a8 a9 a10 a11 a12 b1 b3 b4 b7 b9 b10 b11
  have h1 := update_eval_full ws now1 P M Q X R2 Y Z1 prev Z2
    a1 a2 a3 a4 a5 a6 a7 a8 a9 a10 a11 a12
  have h2 := update_eval_full ws now2 P (midJs ws) Q X (cfiRepl ws) Y Z1 now1 Z2
    b1 a2 b3 b4 a5 a6 b7 a8 b9 b10 b11 a12
  refine ⟨h1, h2, ?_, ?_⟩
  · rw [extractArrayBody_eval P (midJs ws) _ a2 b3,
      extractArrayBody_eval P (midJs ws) _ a2 b3]
  · have e2 : P ++ (newDecl ++ (midJs ws ++ (closeDecl ++ (Q ++ (cfiHead ++ (X ++
        (retLit ++ (cfiRepl ws ++ (semiLit ++ (Y ++ (braceLit ++ (Z1 ++
        (tsLine now2 ++ Z2))))))))))))) =
        (P ++ (newDecl ++ (midJs ws ++ (closeDecl ++ Q)))) ++ (cfiHead ++ (X ++ (retLit ++
        (cfiRepl ws ++ (semiLit ++ (Y ++ (braceLit ++ (Z1 ++
        (tsLine now2 ++ Z2))))))))) := by
      simp [List.append_assoc]
    have e1 : P ++ (newDecl ++ (midJs ws ++ (closeDecl ++ (Q ++ (cfiHead ++ (X ++
        (retLit ++ (cfiRepl ws ++ (semiLit ++ (Y ++ (braceLit ++ (Z1 ++
        (tsLine now1 ++ Z2))))))))))))) =
        (P ++ (newDecl ++ (midJs ws ++ (closeDecl ++ Q)))) ++ (cfiHead ++ (X ++ (retLit ++
        (cfiRepl ws ++ (semiLit ++ (Y ++ (braceLit ++ (Z1 ++
        (tsLine now1 ++ Z2))))))))) := by
      simp [List.append_assoc]
    rw [e1, e2]
    rw [extractLookup_eval _ X (cfiRepl ws) _ a5 a6 b7,
      extractLookup_eval _ X (cfiRepl ws) _ a5 a6 b7]

set_option maxRecDepth 400000 in
/-- C5 witness: the idempotence theorem at a concrete template with an
array, a `checkForIndex` helper and a timestamp line; the second run
reproduces the first run's array and lookup text, changing only the
stamp. -/
theorem claim5_witness :
    update_index_html wsW stamp1
      (some (tplP ++ (newDecl ++ (tplM ++ (closeDecl ++ (tplQ ++ (cfiHead ++ (tplX ++
        (retLit ++ (tplRx ++ (semiLit ++ (tplY ++ (braceLit ++ (tplZ1 ++
        (tsLine stamp0 ++ tplZ2))))))))))))))) =
      (true, some (tplP ++ (newDecl ++ (midJs wsW ++ (closeDecl ++ (tplQ ++ (cfiHead ++
        (tplX ++ (retLit ++ (cfiRepl wsW ++ (semiLit ++ (tplY ++ (braceLit ++ (tplZ1 ++
        (tsLine stamp1 ++ tplZ2))))))))))))))) ∧
    update_index_html wsW stamp2
      (some (tplP ++ (newDecl ++ (midJs wsW ++ (closeDecl ++ (tplQ ++ (cfiHead ++
        (tplX ++ (retLit ++ (cfiRepl wsW ++ (semiLit ++ (tplY ++ (braceLit ++ (tplZ1 ++
        (tsLine stamp1 ++ tplZ2))))))))))))))) =
      (true, some (tplP ++ (newDecl ++ (midJs wsW ++ (closeDecl ++ (tplQ ++ (cfiHead ++
        (tplX ++ (retLit ++ (cfiRepl wsW ++ (semiLit ++ (tplY ++ (braceLit ++ (tplZ1 ++
        (tsLine stamp2 ++ tplZ2))))))))))))))) ∧
    extractArrayBody (tplP ++ (newDecl ++ (midJs wsW ++ (closeDecl ++ (tplQ ++ (cfiHead ++
        (tplX ++ (retLit ++ (cfiRepl wsW ++ (semiLit ++ (tplY ++ (braceLit ++ (tplZ1 ++
        (tsLine stamp2 ++ tplZ2)))))))))))))) =
      extractArrayBody (tplP ++ (newDecl ++ (midJs wsW ++ (closeDecl ++ (tplQ ++ (cfiHead ++
        (tplX ++ (retLit ++ (cfiRepl wsW ++ (semiLit ++ (tplY ++ (braceLit ++ (tplZ1 ++
        (tsLine stamp1 ++ tplZ2)))))))))))))) ∧
    extractLookup (tplP ++ (newDecl ++ (midJs wsW ++ (closeDecl ++ (tplQ ++ (cfiHead ++
        (tplX ++ (retLit ++ (cfiRepl wsW ++ (semiLit ++ (tplY ++ (braceLit ++ (tplZ1 ++
        (tsLine stamp2 ++ tplZ2)))))))))))))) =
      extractLookup (tplP ++ (newDecl ++ (midJs wsW ++ (closeDecl ++ (tplQ ++ (cfiHead ++
        (tplX ++ (retLit ++ (cfiRepl wsW ++ (semiLit ++ (tplY ++ (braceLit ++ (tplZ1 ++
        (tsLine stamp1 ++ tplZ2)))))))))))))) := by
  exact claim5_idempotent wsW stamp1 stamp2 tplP tplM tplQ tplX tplRx tplY tplZ1 stamp0 tplZ2
    rfl rfl rfl rfl rfl rfl rfl rfl rfl rfl rfl rfl rfl rfl rfl rfl rfl rfl rfl
